import Mathlib

/-!
# Verification of the js2akm AKM-module compiler

Shallow embedding of the AKM v2 compiler pipeline (parser extraction,
IR builder, optimizer, code generator, binary writer, inspector) from
`src/i386/akmcc/js2akm/{src,bin}` plus the binary writer found in
`src/unnamed/part_001` (`binary.js`).

Strings are modelled as Lean `String`s whose characters are mapped to
bytes one-for-one (`strBytes`); this is byte-exact for the ASCII
identifiers and literals occurring in modules (the JS source encodes
via UTF-8, which agrees with this model on ASCII).  Buffers are
`List Nat` of byte values.  The sequential `Buffer` writes of the JS
code at strictly increasing offsets are modelled as concatenation of
the fields in the identical order.
-/

set_option maxRecDepth 100000

namespace AKM

/-- Little-endian encoding of the low 16 bits, as `Buffer.writeUInt16LE`
produces for an in-range value. -/
def le16 (v : Nat) : List Nat := [v % 256, v / 256 % 256]

/-- Little-endian encoding of the low 32 bits, as `Buffer.writeUInt32LE`
produces for an in-range value. -/
def le32 (v : Nat) : List Nat :=
  [v % 256, v / 256 % 256, v / 65536 % 256, v / 16777216 % 256]

/-- A run of `n` zero bytes (`Buffer.alloc` regions that are never written). -/
def zeros (n : Nat) : List Nat := List.replicate n 0

/-- Bytes of an ASCII string (model of UTF-8 encoding for ASCII data). -/
def strBytes (s : String) : List Nat := s.data.map Char.toNat

/-- Reading a u32 little-endian at `off`, as `Buffer.readUInt32LE` does. -/
def readU32 (l : List Nat) (off : Nat) : Nat :=
  l.getD off 0 + 256 * l.getD (off + 1) 0 + 65536 * l.getD (off + 2) 0 +
    16777216 * l.getD (off + 3) 0

/-- `writeFixedString`: take at most `maxLen - 1` bytes of the string and
pad the field with the zero bytes of the freshly allocated buffer. -/
def fixedStr (s : List Nat) (maxLen : Nat) : List Nat :=
  let t := s.take (maxLen - 1)
  t ++ zeros (maxLen - t.length)

/-- One step of `calculateChecksum`: `checksum += b` followed by
`checksum = ((checksum << 1) | (checksum >>> 31)) >>> 0`.  The shift
operators coerce to 32 bits, so the step is a 32-bit rotate-left of
`(acc + b) mod 2^32` by one. -/
def chkStep (acc b : Nat) : Nat :=
  2 * ((acc + b) % 4294967296) % 4294967296 |||
    (acc + b) % 4294967296 / 2147483648

/-- `AKMBinaryWriter.calculateChecksum`: rolling 32-bit accumulator. -/
def calculateChecksum (data : List Nat) : Nat :=
  data.foldl chkStep 0

/-! ## Constants (`src/constants.js`) -/

-- Capability flags (`CAPABILITIES` in constants.js).
namespace CAPABILITIES

def NONE : Nat := 0x00000000
def COMMAND : Nat := 0x00000001
def DRIVER : Nat := 0x00000002
def FILESYSTEM : Nat := 0x00000004
def NETWORK : Nat := 0x00000008
def ENVVAR : Nat := 0x00000010
def PROCESS : Nat := 0x00000020
def MEMORY : Nat := 0x00000040
def IRQ : Nat := 0x00000080
def IO_PORT : Nat := 0x00000100
def PCI : Nat := 0x00000200
def TIMER : Nat := 0x00000400
def LOG : Nat := 0x00000800
def SYSINFO : Nat := 0x00001000
def USER : Nat := 0x00002000
def SECURITY : Nat := 0x00004000
def PANIC : Nat := 0x00008000
def DEBUG : Nat := 0x00010000
def IPC : Nat := 0x00020000
def CRYPTO : Nat := 0x00040000
def ACPI : Nat := 0x00080000
def ALL : Nat := 0xFFFFFFFF

end CAPABILITIES

-- Bytecode opcodes (`OPCODES` in constants.js).
namespace OPCODES

def NOP : Nat := 0x00
def PUSH : Nat := 0x01
def PUSH_STR : Nat := 0x02
def PUSH_ARG : Nat := 0x03
def POP : Nat := 0x04
def DUP : Nat := 0x05
def SWAP : Nat := 0x06
def LOAD_LOCAL : Nat := 0x10
def STORE_LOCAL : Nat := 0x11
def LOAD_GLOBAL : Nat := 0x12
def STORE_GLOBAL : Nat := 0x13
def ADD : Nat := 0x20
def SUB : Nat := 0x21
def MUL : Nat := 0x22
def DIV : Nat := 0x23
def MOD : Nat := 0x24
def NEG : Nat := 0x25
def INC : Nat := 0x26
def DEC : Nat := 0x27
def AND : Nat := 0x30
def OR : Nat := 0x31
def XOR : Nat := 0x32
def NOT : Nat := 0x33
def SHL : Nat := 0x34
def SHR : Nat := 0x35
def EQ : Nat := 0x40
def NE : Nat := 0x41
def LT : Nat := 0x42
def LE : Nat := 0x43
def GT : Nat := 0x44
def GE : Nat := 0x45
def JMP : Nat := 0x50
def JZ : Nat := 0x51
def JNZ : Nat := 0x52
def CALL : Nat := 0x53
def CALL_API : Nat := 0x54
def RET : Nat := 0x55
def LOAD8 : Nat := 0x60
def LOAD16 : Nat := 0x61
def LOAD32 : Nat := 0x62
def STORE8 : Nat := 0x63
def STORE16 : Nat := 0x64
def STORE32 : Nat := 0x65
def SYSCALL : Nat := 0x70
def BREAKPOINT : Nat := 0x71
def HALT : Nat := 0x7F

end OPCODES

-- File-format constants (`AKM_FORMAT`).
namespace AKM_FORMAT

def MAGIC_V2 : Nat := 0x324D4B41
def FORMAT_VERSION : Nat := 2
def HEADER_SIZE : Nat := 512
def SYM_FUNC : Nat := 1
def BIND_GLOBAL : Nat := 1

end AKM_FORMAT

/-- Entry of the `API_FUNCTIONS` table: required capability bit and
declared argument count. -/
structure APIInfo where
  capability : Nat
  argCount : Nat
deriving Repr, DecidableEq

/-- `API_FUNCTIONS` from constants.js, in the exact key order of the
object literal (the order matters: `AKMCodeGen.getAPIIndex` uses the
position of a method in `Object.keys(API_FUNCTIONS)`). -/
def API_FUNCTIONS : List (String × APIInfo) := [
  ("log", ⟨CAPABILITIES.LOG, 2⟩),
  ("info", ⟨CAPABILITIES.LOG, 1⟩),
  ("warn", ⟨CAPABILITIES.LOG, 1⟩),
  ("error", ⟨CAPABILITIES.LOG, 1⟩),
  ("debug", ⟨CAPABILITIES.DEBUG, 1⟩),
  ("hexdump", ⟨CAPABILITIES.DEBUG, 2⟩),
  ("malloc", ⟨CAPABILITIES.MEMORY, 1⟩),
  ("calloc", ⟨CAPABILITIES.MEMORY, 2⟩),
  ("realloc", ⟨CAPABILITIES.MEMORY, 2⟩),
  ("free", ⟨CAPABILITIES.MEMORY, 1⟩),
  ("allocPage", ⟨CAPABILITIES.MEMORY, 0⟩),
  ("freePage", ⟨CAPABILITIES.MEMORY, 1⟩),
  ("registerCommand", ⟨CAPABILITIES.COMMAND, 1⟩),
  ("unregisterCommand", ⟨CAPABILITIES.COMMAND, 1⟩),
  ("getenv", ⟨CAPABILITIES.ENVVAR, 1⟩),
  ("setenv", ⟨CAPABILITIES.ENVVAR, 2⟩),
  ("unsetenv", ⟨CAPABILITIES.ENVVAR, 1⟩),
  ("registerDriver", ⟨CAPABILITIES.DRIVER, 1⟩),
  ("unregisterDriver", ⟨CAPABILITIES.DRIVER, 1⟩),
  ("registerFS", ⟨CAPABILITIES.FILESYSTEM, 1⟩),
  ("unregisterFS", ⟨CAPABILITIES.FILESYSTEM, 1⟩),
  ("open", ⟨CAPABILITIES.FILESYSTEM, 2⟩),
  ("close", ⟨CAPABILITIES.FILESYSTEM, 1⟩),
  ("read", ⟨CAPABILITIES.FILESYSTEM, 3⟩),
  ("write", ⟨CAPABILITIES.FILESYSTEM, 3⟩),
  ("seek", ⟨CAPABILITIES.FILESYSTEM, 3⟩),
  ("registerNetif", ⟨CAPABILITIES.NETWORK, 2⟩),
  ("unregisterNetif", ⟨CAPABILITIES.NETWORK, 1⟩),
  ("netifReceive", ⟨CAPABILITIES.NETWORK, 3⟩),
  ("registerIRQ", ⟨CAPABILITIES.IRQ, 3⟩),
  ("unregisterIRQ", ⟨CAPABILITIES.IRQ, 1⟩),
  ("enableIRQ", ⟨CAPABILITIES.IRQ, 1⟩),
  ("disableIRQ", ⟨CAPABILITIES.IRQ, 1⟩),
  ("outb", ⟨CAPABILITIES.IO_PORT, 2⟩),
  ("outw", ⟨CAPABILITIES.IO_PORT, 2⟩),
  ("outl", ⟨CAPABILITIES.IO_PORT, 2⟩),
  ("inb", ⟨CAPABILITIES.IO_PORT, 1⟩),
  ("inw", ⟨CAPABILITIES.IO_PORT, 1⟩),
  ("inl", ⟨CAPABILITIES.IO_PORT, 1⟩),
  ("ioWait", ⟨CAPABILITIES.IO_PORT, 0⟩),
  ("pciFindDevice", ⟨CAPABILITIES.PCI, 2⟩),
  ("pciFindClass", ⟨CAPABILITIES.PCI, 2⟩),
  ("pciReadConfig", ⟨CAPABILITIES.PCI, 2⟩),
  ("pciWriteConfig", ⟨CAPABILITIES.PCI, 3⟩),
  ("pciEnableBusmaster", ⟨CAPABILITIES.PCI, 1⟩),
  ("createTimer", ⟨CAPABILITIES.TIMER, 3⟩),
  ("startTimer", ⟨CAPABILITIES.TIMER, 1⟩),
  ("stopTimer", ⟨CAPABILITIES.TIMER, 1⟩),
  ("destroyTimer", ⟨CAPABILITIES.TIMER, 1⟩),
  ("getTicks", ⟨CAPABILITIES.TIMER, 0⟩),
  ("sleep", ⟨CAPABILITIES.TIMER, 1⟩),
  ("spawn", ⟨CAPABILITIES.PROCESS, 3⟩),
  ("kill", ⟨CAPABILITIES.PROCESS, 2⟩),
  ("getpid", ⟨CAPABILITIES.PROCESS, 0⟩),
  ("yield", ⟨CAPABILITIES.PROCESS, 0⟩),
  ("getSysinfo", ⟨CAPABILITIES.SYSINFO, 0⟩),
  ("getKernelVersion", ⟨CAPABILITIES.SYSINFO, 0⟩),
  ("ipcSend", ⟨CAPABILITIES.IPC, 3⟩),
  ("ipcReceive", ⟨CAPABILITIES.IPC, 2⟩),
  ("ipcCreateChannel", ⟨CAPABILITIES.IPC, 1⟩),
  ("ipcDestroyChannel", ⟨CAPABILITIES.IPC, 1⟩),
  ("sha256", ⟨CAPABILITIES.CRYPTO, 2⟩),
  ("randomBytes", ⟨CAPABILITIES.CRYPTO, 2⟩),
  ("getCurrentUID", ⟨CAPABILITIES.USER, 0⟩),
  ("getUsername", ⟨CAPABILITIES.USER, 1⟩),
  ("checkPermission", ⟨CAPABILITIES.USER, 2⟩)]

/-- `API_FUNCTIONS[method]` dictionary lookup. -/
def apiLookup (method : String) : Option APIInfo :=
  (API_FUNCTIONS.find? (fun p => p.1 = method)).map (·.2)

/-! ## JavaScript values and the source AST

The parser operates on an acorn AST.  We embed the node shapes that the
compiler inspects.  Node fields that only carry positions (`loc`,
`range`, `start`, `end`) are skipped by `walkAST` in the source and are
not modelled.  Member-expression property identifiers and function
parameter identifiers are plain `Identifier` nodes in acorn; no
`walkAST` visitor in the source has an effect on a bare `Identifier`,
so they are carried as strings here and omitted from traversal. -/

/-- A JavaScript value as produced by `evaluateLiteral`:
number, string, boolean, the `{ ref: name }` sentinel, or `null`.
JS `NaN` (which can arise from unary minus on a non-numeric value and
is lowered to the immediate byte pattern of 0) is collapsed into
`nullV`, which lowers to the same immediate 0. -/
inductive JSVal where
  | num (i : Int)
  | str (s : String)
  | bool (b : Bool)
  | ref (name : String)
  | nullV
deriving Repr, DecidableEq

/-- Acorn AST node shapes inspected by the compiler. `callExpr` keeps
its callee as a node so that the source's
`callee.type === 'MemberExpression' && callee.object.name === 'AKM'`
test can be modelled exactly; `funcExpr` covers both
`FunctionExpression` and `ArrowFunctionExpression` initializers. -/
inductive Node where
  | program (body : List Node)
  | exprStmt (e : Node)
  | callExpr (callee : Node) (args : List Node)
  | memberExpr (obj : Node) (prop : String)
  | identifier (name : String)
  | literal (v : JSVal)
  | templateLit (raw : String)
  | unaryNeg (arg : Node)
  | binExpr (op : String) (lhs : Node) (rhs : Node)
  | objectExpr (props : List (String × Node))
  | arrayExpr (elems : List Node)
  | returnStmt (arg : Option Node)
  | varDecl (decls : List (String × Option Node))
  | funcDecl (name : String) (params : List String) (body : List Node)
  | exportNamedFn (name : String) (params : List String) (body : List Node)
  | funcExpr (params : List String) (body : List Node)
  | blockStmt (body : List Node)

mutual

/-- The pre-order node sequence produced by `AKMParser.walkAST`: the
visitor is called on a node first, then on its children in property
order.  Every extractor and the IR generator are folds over this
sequence. -/
def preorder : Node → List Node
  | .program body => .program body :: preorderList body
  | .exprStmt e => .exprStmt e :: preorder e
  | .callExpr callee args =>
      .callExpr callee args :: (preorder callee ++ preorderList args)
  | .memberExpr obj prop => .memberExpr obj prop :: preorder obj
  | .identifier n => [.identifier n]
  | .literal v => [.literal v]
  | .templateLit raw => [.templateLit raw]
  | .unaryNeg a => .unaryNeg a :: preorder a
  | .binExpr op l r => .binExpr op l r :: (preorder l ++ preorder r)
  | .objectExpr props => .objectExpr props :: preorderProps props
  | .arrayExpr elems => .arrayExpr elems :: preorderList elems
  | .returnStmt none => [.returnStmt none]
  | .returnStmt (some a) => .returnStmt (some a) :: preorder a
  | .varDecl decls => .varDecl decls :: preorderDecls decls
  | .funcDecl n ps body => .funcDecl n ps body :: preorderList body
  | .exportNamedFn n ps body =>
      -- walkAST recurses into `node.declaration`, i.e. the inner
      -- FunctionDeclaration node (which is therefore visited as well)
      .exportNamedFn n ps body :: .funcDecl n ps body :: preorderList body
  | .funcExpr ps body => .funcExpr ps body :: preorderList body
  | .blockStmt body => .blockStmt body :: preorderList body

def preorderList : List Node → List Node
  | [] => []
  | n :: ns => preorder n ++ preorderList ns

def preorderProps : List (String × Node) → List Node
  | [] => []
  | p :: ps => preorder p.2 ++ preorderProps ps

def preorderDecls : List (String × Option Node) → List Node
  | [] => []
  | (_, none) :: ds => preorderDecls ds
  | (_, some e) :: ds => preorder e ++ preorderDecls ds

end

/-- JS unary minus applied to an `evaluateLiteral` result.  For a
non-numeric operand JS produces `NaN` (modelled as `nullV`; both lower
to the immediate 0), `-null` is `-0`, `-true` is `-1`. -/
def jsNeg : JSVal → JSVal
  | .num i => .num (-i)
  | .bool b => .num (if b then -1 else 0)
  | .nullV => .num 0
  | _ => .nullV

/-- `AKMParser.evaluateLiteral`.  Note that the `BinaryExpression` case
of the source merely `break`s out of the switch ("Could evaluate simple
constant expressions") and therefore returns `null`, and that there is
no `MemberExpression` case, so `AKM.CAPS.X` also evaluates to `null`. -/
def evaluateLiteral : Node → JSVal
  | .literal v => v
  | .templateLit raw => .str raw
  | .identifier n => .ref n
  | .unaryNeg a => jsNeg (evaluateLiteral a)
  | _ => .nullV

/-- Values stored in an object extracted by `parseObjectExpression`:
either an evaluated literal, an array of evaluated literals, or a
nested object. -/
inductive CfgVal where
  | v (j : JSVal)
  | arr (l : List JSVal)
  | obj (o : List (String × CfgVal))

/-- JS object-property assignment `obj[key] = value`: an existing key
keeps its insertion position, a new key is appended. -/
def upsert {α : Type} (l : List (String × α)) (k : String) (x : α) :
    List (String × α) :=
  if l.any (fun p => p.1 = k) then
    l.map (fun p => if p.1 = k then (k, x) else p)
  else
    l ++ [(k, x)]

/-- JS object-property read (keys are unique in an upsert-built list). -/
def assocGet {α : Type} (l : List (String × α)) (k : String) : Option α :=
  (l.find? (fun p => p.1 = k)).map (·.2)

mutual

/-- `AKMParser.parseObjectExpression`: evaluate each property with the
restricted evaluator, recursing into object literals and mapping
`evaluateLiteral` over array literals. -/
def parseObjectExpression : Node → List (String × CfgVal)
  | .objectExpr props => parseProps props []
  | _ => []

def parseProps :
    List (String × Node) → List (String × CfgVal) → List (String × CfgVal)
  | [], acc => acc
  | (key, value) :: ps, acc =>
      let cv : CfgVal :=
        match value with
        | .objectExpr props => .obj (parseProps props [])
        | .arrayExpr elems => .arr (elems.map evaluateLiteral)
        | _ => .v (evaluateLiteral value)
      parseProps ps (upsert acc key cv)

end

/-! ## Parser extraction (`src/parser.js`) -/

/-- An extracted function definition (`extractFunctions` record): its
name, parameter names, and the statements of its body. -/
structure FuncDef where
  name : String
  params : List String
  body : List Node
  isExport : Bool

/-- An extracted `AKM.command` registration (`extractCommands` record). -/
structure Cmd where
  name : String
  syntaxStr : String
  description : String
  category : String
  handler : Option String
deriving Repr, DecidableEq

/-- An extracted `AKM.<method>` call site (`extractAPICalls` record). -/
structure APICall where
  method : String
  args : List Node

/-- JS truthiness of a property value (`if (x)` / `x || y`). -/
def cfgTruthy : CfgVal → Bool
  | .v (.num i) => i != 0
  | .v (.str s) => s ≠ ""
  | .v (.bool b) => b
  | .v (.ref _) => true   -- the sentinel object is truthy
  | .v .nullV => false
  | .arr _ => true
  | .obj _ => true

/-- Read a string-valued configuration property with a JS `||` default:
an absent, `null`, or empty-string property yields the default.
(A non-string truthy property would be propagated as-is by the JS `||`;
no claim exercises that shape.) -/
def cfgStrOr (cfg : List (String × CfgVal)) (k : String) (dflt : String) :
    String :=
  match assocGet cfg k with
  | some (.v (.str s)) => if s = "" then dflt else s
  | _ => dflt

/-- `AKMParser.extractModuleConfig`: a fold over the `walkAST` pre-order
visit sequence.  Each `AKM.module(<object>)` call overwrites `config`. -/
def extractModuleConfig (ast : Node) : List (String × CfgVal) :=
  (preorder ast).foldl
    (fun config n =>
      match n with
      | .callExpr (.memberExpr (.identifier "AKM") "module") args =>
          match args with
          | .objectExpr props :: _ => parseObjectExpression (.objectExpr props)
          | _ => config
      | _ => config)
    []

/-- `AKMParser.extractFunctions`: named declarations, exported named
declarations, and variable bindings initialized with a function or
arrow expression, keyed by name in a JS object (insertion order, a
re-assignment keeps the original position). -/
def extractFunctions (ast : Node) : List (String × FuncDef) :=
  (preorder ast).foldl
    (fun fns n =>
      match n with
      | .funcDecl nm ps body => upsert fns nm ⟨nm, ps, body, false⟩
      | .exportNamedFn nm ps body => upsert fns nm ⟨nm, ps, body, true⟩
      | .varDecl decls =>
          decls.foldl
            (fun fns d =>
              match d with
              | (nm, some (.funcExpr ps body)) =>
                  upsert fns nm ⟨nm, ps, body, false⟩
              | _ => fns)
            fns
      | _ => fns)
    []

/-- `AKMParser.extractCommands`: every `AKM.command(cfg, handler)` call
with at least two arguments.  The handler name is taken from an
`Identifier` argument; any other handler shape yields `none`. -/
def extractCommands (ast : Node) : List Cmd :=
  (preorder ast).foldl
    (fun cmds n =>
      match n with
      | .callExpr (.memberExpr (.identifier "AKM") "command") args =>
          match args with
          | cfgNode :: handler :: _ =>
              let cmdConfig := parseObjectExpression cfgNode
              let nm := cfgStrOr cmdConfig "name" "unknown"
              cmds ++ [{
                name := nm,
                syntaxStr := cfgStrOr cmdConfig "syntax" nm,
                description := cfgStrOr cmdConfig "description" "",
                category := cfgStrOr cmdConfig "category" "Module",
                handler :=
                  match handler with
                  | .identifier hn => some hn
                  | _ => none }]
          | _ => cmds
      | _ => cmds)
    []

/-- `AKMParser.extractAPICalls`: every call whose callee is a member
access on the identifier `AKM`, except `module` and `command`. -/
def extractAPICalls (ast : Node) : List APICall :=
  (preorder ast).foldl
    (fun calls n =>
      match n with
      | .callExpr (.memberExpr (.identifier "AKM") m) args =>
          if m = "module" ∨ m = "command" then calls
          else calls ++ [⟨m, args⟩]
      | _ => calls)
    []

/-- `AKMParser.computeRequiredCapabilities`: OR `COMMAND` when a command
is registered, OR each known method capability, always OR `LOG`.
(The warning emitted for an unknown method is a side effect not needed
by any claim and is not modelled.)  All capability constants are below
2^31, where the JS 32-bit `|` agrees with `Nat.lor`. -/
def computeRequiredCapabilities (apiCalls : List APICall)
    (commands : List Cmd) : Nat :=
  let caps0 := if commands.length > 0 then CAPABILITIES.COMMAND else 0
  let caps1 := apiCalls.foldl
    (fun caps call =>
      match apiLookup call.method with
      | some apiInfo => caps ||| apiInfo.capability
      | none => caps)
    caps0
  caps1 ||| CAPABILITIES.LOG

/-! ## IR (`AKMParser.generateIR`) -/

/-- A tagged IR instruction: an opcode plus the optional fields the
source stores on instruction objects. -/
structure Instr where
  op : Nat
  value : Option JSVal := none
  name : Option String := none
  label : Option String := none
  target : Option Nat := none
  func : Option String := none
  method : Option String := none
  argc : Option Nat := none
  arg : Option Nat := none
  isEntry : Bool := false
deriving Repr, DecidableEq

/-- An IR function. -/
structure IRFunc where
  name : String
  nameIdx : Nat
  params : List String
  instructions : List Instr
  locals : List String
  isInit : Bool
  isExit : Bool
deriving Repr, DecidableEq

/-- An IR command record (string-table indices plus handler name). -/
structure IRCmd where
  nameIdx : Nat
  syntaxIdx : Nat
  descIdx : Nat
  categoryIdx : Nat
  handler : Option String
deriving Repr, DecidableEq

/-- An IR record of an observed API call. -/
structure IRApi where
  method : String
  methodIdx : Nat
  argCount : Nat
deriving Repr, DecidableEq

/-- The IR produced by `generateIR`. -/
structure IR where
  strings : List String
  functions : List IRFunc
  commands : List IRCmd
  apiCalls : List IRApi
deriving Repr, DecidableEq

/-- `addString`: register a string in the IR string table, returning the
updated table and the index of the string (a `Map` keyed by content, so
a repeated string keeps its first index). -/
def addString (st : List String) (s : String) : List String × Nat :=
  match st.findIdx? (fun t => t = s) with
  | some i => (st, i)
  | none => (st ++ [s], st.length)

/-- State threaded through `generateFunctionIR`: the function's locals
and instructions plus the IR-wide string table mutated by the
`addString` closure. -/
structure GenState where
  locals : List String
  instrs : List Instr
  strs : List String

/-- Append one instruction (`instructions.push`). -/
def GenState.push (st : GenState) (i : Instr) : GenState :=
  { st with instrs := st.instrs ++ [i] }

/-- The visitor body of `generateFunctionIR`'s `walkAST` callback:
emits IR for API calls, plain calls, return statements and variable
declarations; every other node kind emits nothing. -/
def genVisit (st : GenState) (n : Node) : GenState :=
  match n with
  | .callExpr callee args =>
      match callee with
      | .memberExpr (.identifier "AKM") method =>
          let st := args.foldl
            (fun st argN =>
              let value := evaluateLiteral argN
              match value with
              | .str sv =>
                  let st := { st with strs := (addString st.strs sv).1 }
                  st.push { op := OPCODES.PUSH_STR, value := some (.str sv) }
              | .num i =>
                  st.push { op := OPCODES.PUSH, value := some (.num i) }
              | _ =>
                  match argN with
                  | .identifier nm =>
                      st.push { op := OPCODES.LOAD_LOCAL, name := some nm }
                  | _ =>
                      st.push { op := OPCODES.PUSH, value := some (.num 0) })
            st
          st.push { op := OPCODES.CALL_API, method := some method,
                    argc := some args.length }
      | .identifier f =>
          st.push { op := OPCODES.CALL, func := some f,
                    argc := some args.length }
      | _ => st
  | .returnStmt argOpt =>
      let st :=
        match argOpt with
        | some a =>
            st.push { op := OPCODES.PUSH, value := some (evaluateLiteral a) }
        | none => st
      st.push { op := OPCODES.RET }
  | .varDecl decls =>
      decls.foldl
        (fun st d =>
          let st := { st with locals := st.locals ++ [d.1] }
          match d.2 with
          | some ini =>
              st.push { op := OPCODES.STORE_LOCAL, name := some d.1,
                        value := some (evaluateLiteral ini) }
          | none => st)
        st
  | _ => st

/-- `AKMParser.generateFunctionIR`: fold the visitor over the body's
pre-order node sequence, then ensure the function ends with `RET`. -/
def generateFunctionIR (body : List Node) (strs : List String) : GenState :=
  let st := (preorderList body).foldl genVisit ⟨[], [], strs⟩
  match st.instrs.getLast? with
  | some lastI => if lastI.op = OPCODES.RET then st
                  else st.push { op := OPCODES.RET }
  | none => st.push { op := OPCODES.RET }

/-- `Array.prototype.splice(idx, 0, ...new)`: insert `new` at `idx`. -/
def spliceAt {α : Type} (idx : Nat) (new : List α) (l : List α) : List α :=
  l.take idx ++ new ++ l.drop idx

/-- The registration block synthesized for one command: four string
pushes, a `PUSH 0` handler placeholder, the `registerCommand` API call
with five arguments, and a `POP` of the result. -/
def regBlock (cmd : Cmd) : List Instr :=
  [{ op := OPCODES.PUSH_STR, value := some (.str cmd.name) },
   { op := OPCODES.PUSH_STR, value := some (.str cmd.syntaxStr) },
   { op := OPCODES.PUSH_STR, value := some (.str cmd.description) },
   { op := OPCODES.PUSH_STR, value := some (.str cmd.category) },
   { op := OPCODES.PUSH, value := some (.num 0) },
   { op := OPCODES.CALL_API, method := some "registerCommand",
     argc := some 5 },
   { op := OPCODES.POP }]

/-- The injection index: the position of the first `RET`
(`findIndex(i => i.op === OPCODES.RET)`), or the end of the list when
there is none (`returnIdx >= 0 ? returnIdx : instructions.length`). -/
def injectIdx (instrs : List Instr) : Nat :=
  match instrs.findIdx? (fun i => i.op = OPCODES.RET) with
  | some returnIdx => returnIdx
  | none => instrs.length

/-- The command-registration injection in `generateIR`: find the first
`RET` of `init` (or the end), then splice one registration block per
command at that fixed index — each iteration splices at the *same*
`insertIdx`. -/
def injectRegCalls (commands : List Cmd) (instrs : List Instr) :
    List Instr :=
  commands.foldl
    (fun acc cmd => spliceAt (injectIdx instrs) (regBlock cmd) acc) instrs

/-- `AKMParser.generateIR`: register command strings, lower every
extracted function (injecting registration calls into `init` when
commands exist), then record API-call strings. -/
def generateIR (functions : List (String × FuncDef)) (commands : List Cmd)
    (apiCalls : List APICall) : IR :=
  -- commands first
  let (strs, irCommands) := commands.foldl
    (fun (acc : List String × List IRCmd) cmd =>
      let (st, cs) := acc
      let (st, nameIdx) := addString st cmd.name
      let (st, syntaxIdx) := addString st cmd.syntaxStr
      let (st, descIdx) := addString st cmd.description
      let (st, categoryIdx) := addString st cmd.category
      (st, cs ++ [⟨nameIdx, syntaxIdx, descIdx, categoryIdx, cmd.handler⟩]))
    ([], [])
  -- functions
  let (strs, irFunctions) := functions.foldl
    (fun (acc : List String × List IRFunc) nf =>
      let (st, fs) := acc
      let (nm, fd) := nf
      let (st, nameIdx) := addString st nm
      let gen := generateFunctionIR fd.body st
      let instrs :=
        if nm = "init" ∧ commands.length > 0 then
          injectRegCalls commands gen.instrs
        else gen.instrs
      (gen.strs,
       fs ++ [{ name := nm, nameIdx := nameIdx, params := fd.params,
                instructions := instrs, locals := gen.locals,
                isInit := nm = "init", isExit := nm = "exit" }]))
    (strs, [])
  -- API calls
  let (strs, irApiCalls) := apiCalls.foldl
    (fun (acc : List String × List IRApi) call =>
      let (st, cs) := acc
      let (st, methodIdx) := addString st call.method
      (st, cs ++ [⟨call.method, methodIdx, call.args.length⟩]))
    (strs, [])
  ⟨strs, irFunctions, irCommands, irApiCalls⟩

/-! ## `AKMParser.parse` -/

/-- The result of `AKMParser.parse` on a successfully parsed AST (an
acorn syntax error aborts before any of this and is not modelled). -/
structure ParseResult where
  moduleConfig : Option (List (String × CfgVal))
  functions : List (String × FuncDef)
  commands : List Cmd
  apiCalls : List APICall
  ir : IR

/-- ToInt32-style view of a declared `capabilities` property for the
`|=` merge.  Faithful for numbers below 2^31 (every named capability
bit); a numeric value at or above 2^31 would produce a negative JS
int32 whose header write throws `ERR_OUT_OF_RANGE`, aborting the
compilation, so it never reaches an artifact. -/
def cfgValToCaps : CfgVal → Nat
  | .v (.num i) => (i % 4294967296).toNat
  | .v (.bool b) => if b then 1 else 0
  | _ => 0

/-- The capability merge in `AKMParser.parse`:
`moduleConfig.capabilities |= requiredCaps` when a declared value is
truthy, otherwise `moduleConfig.capabilities = requiredCaps`. -/
def mergeCaps (cfg : List (String × CfgVal)) (required : Nat) :
    List (String × CfgVal) :=
  match assocGet cfg "capabilities" with
  | some cv =>
      if cfgTruthy cv then
        upsert cfg "capabilities"
          (.v (.num (Int.ofNat (cfgValToCaps cv ||| required))))
      else upsert cfg "capabilities" (.v (.num (Int.ofNat required)))
  | none => upsert cfg "capabilities" (.v (.num (Int.ofNat required)))

/-- `AKMParser.parse` after a successful acorn parse: run the four
extractions, merge capabilities, and generate the IR. -/
def AKMParser.parse (ast : Node) : ParseResult :=
  let moduleConfig := extractModuleConfig ast
  let functions := extractFunctions ast
  let commands := extractCommands ast
  let apiCalls := extractAPICalls ast
  let requiredCaps := computeRequiredCapabilities apiCalls commands
  let moduleConfig := mergeCaps moduleConfig requiredCaps
  let ir := generateIR functions commands apiCalls
  ⟨some moduleConfig, functions, commands, apiCalls, ir⟩

/-! ## Optimizer (`src/optimizer.js`)

The optimizer passes are written against an IR whose `functions` carry
instruction lists.  (In the shipped `AKMCompiler.compile` they are
applied to the *code-generator result* instead — see
`AKMCompiler.compile` below.) -/

/-- The shape `AKMOptimizer`'s passes expect. -/
structure OptIR where
  strings : List String
  functions : List IRFunc

/-- JS `ToInt32` view of an integer. -/
def u32 (i : Int) : Nat := (i % 4294967296).toNat

/-- Signed 32-bit value of a `u32` bit pattern. -/
def fromU32 (n : Nat) : Int :=
  if n < 2147483648 then (n : Int) else (n : Int) - 4294967296

/-- JS bitwise ops coerce both operands to int32. -/
def jsAnd (a b : Int) : Int := fromU32 (Nat.land (u32 a) (u32 b))

def jsOr (a b : Int) : Int := fromU32 (u32 a ||| u32 b)

def jsXor (a b : Int) : Int := fromU32 (Nat.xor (u32 a) (u32 b))

def jsShl (a b : Int) : Int := fromU32 (u32 a * 2 ^ (u32 b % 32) % 4294967296)

def jsShr (a b : Int) : Int := Int.ofNat (u32 a / 2 ^ (u32 b % 32))

/-- The `switch (next2.op)` of `constantFolding`: the folded constant,
or `none` (the JS `result = null`) for a non-foldable opcode or a
division/modulo by zero.  `DIV` is `Math.floor` (floor division), `MOD`
is the JS truncated remainder.  Additions and products are exact JS
doubles for operands below 2^53 (the range of interest). -/
def foldOp (x y : Int) (op : Nat) : Option Int :=
  if op = OPCODES.ADD then some (x + y)
  else if op = OPCODES.SUB then some (x - y)
  else if op = OPCODES.MUL then some (x * y)
  else if op = OPCODES.DIV then (if y ≠ 0 then some (Int.fdiv x y) else none)
  else if op = OPCODES.MOD then (if y ≠ 0 then some (Int.tmod x y) else none)
  else if op = OPCODES.AND then some (jsAnd x y)
  else if op = OPCODES.OR then some (jsOr x y)
  else if op = OPCODES.XOR then some (jsXor x y)
  else if op = OPCODES.SHL then some (jsShl x y)
  else if op = OPCODES.SHR then some (jsShr x y)
  else none

/-- The instruction scan of `AKMOptimizer.constantFolding`: a
`PUSH <num>; PUSH <num>; <op>` triple folds to a single push and the
scan continues after the triple. -/
def constantFoldInstrs : List Instr → List Instr
  | a :: b :: c :: rest =>
      if a.op = OPCODES.PUSH ∧ b.op = OPCODES.PUSH then
        match a.value, b.value with
        | some (.num x), some (.num y) =>
            (match foldOp x y c.op with
             | some r =>
                 { op := OPCODES.PUSH, value := some (.num r) } ::
                   constantFoldInstrs rest
             | none => a :: constantFoldInstrs (b :: c :: rest))
        | _, _ => a :: constantFoldInstrs (b :: c :: rest)
      else a :: constantFoldInstrs (b :: c :: rest)
  | l => l

/-- The per-function body of `AKMOptimizer.deadCodeElimination`.  The
first sweep collects truthy `label`s and `target`s into a JS `Set`; the
second sweep probes that set with the *numeric* instruction index, so
only numeric `target`s can ever mark an instruction reachable (string
labels never equal a number). -/
def deadCodeElimFunc (instrs : List Instr) : List Instr :=
  let seenTargets : List Nat := instrs.foldl
    (fun s i =>
      match i.target with
      | some t => if t ≠ 0 then s ++ [t] else s
      | none => s)
    []
  (instrs.foldl
    (fun (acc : List Instr × Bool × Nat) i =>
      let (out, reachable, idx) := acc
      let reachable := if seenTargets.contains idx then true else reachable
      if reachable then
        (out ++ [i],
         ¬(i.op = OPCODES.RET ∨ i.op = OPCODES.JMP ∨ i.op = OPCODES.HALT),
         idx + 1)
      else (out, reachable, idx + 1))
    ([], true, 0)).1

/-- The pair scan of `AKMOptimizer.peepholeOptimization`, with the
collapses checked in source order. -/
def peepholeInstrs : List Instr → List Instr
  | [] => []
  | [a] => if a.op = OPCODES.NOP ∧ ¬a.isEntry then [] else [a]
  | a :: b :: rest2 =>
      if a.op = OPCODES.PUSH ∧ b.op = OPCODES.POP then
        peepholeInstrs rest2
      else if a.op = OPCODES.NEG ∧ b.op = OPCODES.NEG then
        peepholeInstrs rest2
      else if a.op = OPCODES.NOT ∧ b.op = OPCODES.NOT then
        peepholeInstrs rest2
      else if a.op = OPCODES.NOP ∧ ¬a.isEntry then
        peepholeInstrs (b :: rest2)
      else if a.op = OPCODES.PUSH ∧ a.value = some (.num 0) ∧
              b.op = OPCODES.ADD then
        peepholeInstrs rest2
      else if a.op = OPCODES.PUSH ∧ a.value = some (.num 1) ∧
              b.op = OPCODES.MUL then
        peepholeInstrs rest2
      else if a.op = OPCODES.DUP ∧ b.op = OPCODES.POP then
        peepholeInstrs rest2
      else a :: peepholeInstrs (b :: rest2)

/-- First-occurrence deduplication of the string list
(`AKMOptimizer.stringDeduplication`). -/
def dedupStrings (l : List String) : List String :=
  l.foldl (fun acc s => if acc.contains s then acc else acc ++ [s]) []

def AKMOptimizer.deadCodeElimination (ir : OptIR) : OptIR :=
  ⟨ir.strings, ir.functions.map
      (fun f => { f with instructions := deadCodeElimFunc f.instructions })⟩

def AKMOptimizer.constantFolding (ir : OptIR) : OptIR :=
  ⟨ir.strings, ir.functions.map
      (fun f => { f with instructions := constantFoldInstrs f.instructions })⟩

def AKMOptimizer.peepholeOptimization (ir : OptIR) : OptIR :=
  ⟨ir.strings, ir.functions.map
      (fun f => { f with instructions := peepholeInstrs f.instructions })⟩

def AKMOptimizer.stringDeduplication (ir : OptIR) : OptIR :=
  { ir with strings := dedupStrings ir.strings }

def AKMOptimizer.optimize (ir : OptIR) : OptIR :=
  AKMOptimizer.stringDeduplication
    (AKMOptimizer.peepholeOptimization
      (AKMOptimizer.constantFolding
        (AKMOptimizer.deadCodeElimination ir)))

/-! ## Code generator (`src/codegen.js`) -/

/-- The code generator's string table: `(string, offset, byte length
including the NUL)` entries with cumulative offsets. -/
structure StringTable where
  entries : List (String × Nat × Nat)
  totalSize : Nat
deriving Repr, DecidableEq

def AKMCodeGen.buildStringTable (strings : List String) : StringTable :=
  let (entries, offset) := strings.foldl
    (fun (acc : List (String × Nat × Nat) × Nat) s =>
      let (es, off) := acc
      let len := (strBytes s).length + 1
      (es ++ [(s, off, len)], off + len))
    ([], 0)
  ⟨entries, offset⟩

/-- `offsets.get(<string key>)` (`Map.set` overwrites, so the last
occurrence wins). -/
def StringTable.offsetOfStr (t : StringTable) (s : String) : Option Nat :=
  (t.entries.reverse.find? (fun e => e.1 = s)).map (fun e => e.2.1)

/-- `offsets.get(<numeric key>)` — the table is also keyed by position. -/
def StringTable.offsetOfIdx (t : StringTable) (i : Nat) : Option Nat :=
  (t.entries.get? i).map (fun e => e.2.1)

/-- `offsets.get(instr.value)` for a dynamically typed key. -/
def StringTable.offsetOfVal (t : StringTable) : Option JSVal → Option Nat
  | some (.str s) => t.offsetOfStr s
  | some (.num i) => if 0 ≤ i then t.offsetOfIdx i.toNat else none
  | _ => none

/-- `Array.prototype.indexOf`: position or `-1`. -/
def jsIndexOf (l : List String) (s : String) : Int :=
  match l.findIdx? (fun t => t = s) with
  | some i => (i : Int)
  | none => -1

/-- `AKMCodeGen.getAPIIndex`: position of the method in
`Object.keys(API_FUNCTIONS)`, or `0xFF` for an unknown method. -/
def getAPIIndex (method : String) : Nat :=
  match API_FUNCTIONS.findIdx? (fun p => p.1 = method) with
  | some i => i
  | none => 0xFF

/-- Mutable state of `AKMCodeGen`: the byte buffer, the label map and
the fixup list.  The source also maintains `currentOffset`, which is
kept equal to `code.length` by every emit, so `code.length` is used
directly here. -/
structure CGState where
  code : List Nat
  labels : List (String × Nat)
  fixups : List (Nat × String)
deriving Repr, DecidableEq

/-- `emit`: push `byte & 0xFF`. -/
def emit (st : CGState) (b : Nat) : CGState :=
  { st with code := st.code ++ [b % 256] }

/-- `emit` for a possibly negative JS number (`byte & 0xFF` on int32;
`indexOf` may produce `-1`, emitted as `0xFF`). -/
def emitI (st : CGState) (i : Int) : CGState :=
  { st with code := st.code ++ [(i % 256).toNat] }

/-- `emitInt32`: four little-endian bytes of the int32 bit pattern. -/
def emitInt32 (st : CGState) (v : Int) : CGState :=
  { st with code := st.code ++ le32 ((v % 4294967296).toNat) }

/-- `emitValue`: a number emits its immediate, a string emits its
string-table offset (`|| 0`), the `{ ref }` sentinel and everything
else emit 0. -/
def emitValue (st : CGState) (value : Option JSVal) (tbl : StringTable) :
    CGState :=
  match value with
  | some (.num i) => emitInt32 st i
  | some (.str s) => emitInt32 st (Int.ofNat ((tbl.offsetOfStr s).getD 0))
  | some (.ref _) => emitInt32 st 0
  | _ => emitInt32 st 0

/-- `addFixup`: remember `(currentOffset, label)`. -/
def addFixup (st : CGState) (label : String) : CGState :=
  { st with fixups := st.fixups ++ [(st.code.length, label)] }

/-- The opcodes the `generateInstruction` switch emits as a single
byte (its grouped arithmetic/bitwise/comparison/stack cases). -/
def singleByteOps : List Nat :=
  [OPCODES.ADD, OPCODES.SUB, OPCODES.MUL, OPCODES.DIV, OPCODES.MOD,
   OPCODES.NEG, OPCODES.INC, OPCODES.DEC,
   OPCODES.AND, OPCODES.OR, OPCODES.XOR, OPCODES.NOT, OPCODES.SHL,
   OPCODES.SHR,
   OPCODES.EQ, OPCODES.NE, OPCODES.LT, OPCODES.LE, OPCODES.GT, OPCODES.GE,
   OPCODES.POP, OPCODES.DUP, OPCODES.SWAP, OPCODES.NOP, OPCODES.HALT]

/-- `AKMCodeGen.generateInstruction`. -/
def generateInstruction (instr : Instr) (tbl : StringTable) (f : IRFunc)
    (st : CGState) : CGState :=
  if instr.op = OPCODES.PUSH then
    emitValue (emit st OPCODES.PUSH) instr.value tbl
  else if instr.op = OPCODES.PUSH_ARG then
    emit (emit st OPCODES.PUSH_ARG) (instr.arg.getD 0)
  else if instr.op = OPCODES.PUSH_STR then
    emitInt32 (emit st OPCODES.PUSH_STR)
      (Int.ofNat ((tbl.offsetOfVal instr.value).getD 0))
  else if instr.op = OPCODES.STORE_LOCAL then
    let localIdx := jsIndexOf f.locals (instr.name.getD "")
    let st := emitValue (emit st OPCODES.PUSH) instr.value tbl
    emitI (emit st OPCODES.STORE_LOCAL) localIdx
  else if instr.op = OPCODES.LOAD_LOCAL then
    emitI (emit st OPCODES.LOAD_LOCAL) (jsIndexOf f.locals (instr.name.getD ""))
  else if instr.op = OPCODES.CALL then
    let st := emit st OPCODES.CALL
    let st := addFixup st (instr.func.getD "")
    let st := emitInt32 st 0
    emit st (instr.argc.getD 0)
  else if instr.op = OPCODES.CALL_API then
    emit (emit (emit st OPCODES.CALL_API) (getAPIIndex (instr.method.getD "")))
      (instr.argc.getD 0)
  else if instr.op = OPCODES.RET then
    emit st OPCODES.RET
  else if instr.op = OPCODES.JMP ∨ instr.op = OPCODES.JZ ∨
          instr.op = OPCODES.JNZ then
    let st := emit st instr.op
    let st :=
      match instr.label with
      | some lbl => if lbl ≠ "" then addFixup st lbl else st
      | none => st
    emitInt32 st (Int.ofNat (instr.target.getD 0))
  else if singleByteOps.contains instr.op then
    emit st instr.op
  else
    -- unknown opcode: emit NOP
    emit st OPCODES.NOP

/-- `AKMCodeGen.generateFunction`: register the label, emit the `NOP`
prologue, one `PUSH 0` per local, then the body instructions. -/
def generateFunction (f : IRFunc) (tbl : StringTable) (st : CGState) :
    CGState :=
  let st := { st with labels := upsert st.labels f.name st.code.length }
  let st := emit st OPCODES.NOP
  let st := f.locals.foldl (fun st _ => emitInt32 (emit st OPCODES.PUSH) 0) st
  f.instructions.foldl (fun st i => generateInstruction i tbl f st) st

/-- Patch a little-endian u32 into the code buffer (the four
assignments of `resolveFixups`). -/
def patch32 (code : List Nat) (off : Nat) (t : Nat) : List Nat :=
  (((code.set off (t % 256)).set (off + 1) (t / 256 % 256)).set
      (off + 2) (t / 65536 % 256)).set (off + 3) (t / 16777216 % 256)

/-- `AKMCodeGen.resolveFixups`: write each resolvable label address at
its recorded offset; unresolved fixups keep the zero placeholder. -/
def resolveFixups (st : CGState) : List Nat :=
  st.fixups.foldl
    (fun code fx =>
      match assocGet st.labels fx.2 with
      | some target => patch32 code fx.1 target
      | none => code)
    st.code

/-- A 20-byte command stub record. -/
structure Stub where
  nameOffset : Nat
  syntaxOffset : Nat
  descOffset : Nat
  categoryOffset : Nat
  handlerOffset : Nat
deriving Repr, DecidableEq

/-- `AKMCodeGen.generateCommandStubs`. -/
def generateCommandStubs (commands : List Cmd) (tbl : StringTable)
    (functionOffsets : List (String × Nat)) : List Stub :=
  commands.map (fun cmd =>
    { nameOffset := (tbl.offsetOfStr cmd.name).getD 0,
      syntaxOffset := (tbl.offsetOfStr cmd.syntaxStr).getD 0,
      descOffset := (tbl.offsetOfStr cmd.description).getD 0,
      categoryOffset := (tbl.offsetOfStr cmd.category).getD 0,
      handlerOffset := (cmd.handler.bind
        (fun h => assocGet functionOffsets h)).getD 0 })

/-- `AKMCodeGen.buildDataSection`: the NUL-terminated strings of the
table, followed by the 20-byte command stubs. -/
def buildDataSection (tbl : StringTable) (stubs : List Stub) : List Nat :=
  (tbl.entries.foldl (fun acc e => acc ++ strBytes e.1 ++ [0]) []) ++
    stubs.foldl
      (fun acc s => acc ++ le32 s.nameOffset ++ le32 s.syntaxOffset ++
        le32 s.descOffset ++ le32 s.categoryOffset ++ le32 s.handlerOffset)
      []

/-- The object returned by `AKMCodeGen.generate`. -/
structure CodegenResult where
  code : List Nat
  data : List Nat
  strings : List String
  functions : List (String × Nat)
  commands : List IRCmd
  initOffset : Nat
  exitOffset : Nat
  codeSize : Nat
  dataSize : Nat
deriving Repr, DecidableEq

/-- One iteration of `generate`'s function loop: record the function's
start offset (`functionOffsets.set(func.name, this.currentOffset)`),
then emit the function. -/
def genStep (tbl : StringTable) (acc : CGState × List (String × Nat))
    (f : IRFunc) : CGState × List (String × Nat) :=
  let (st, offs) := acc
  let offs := upsert offs f.name st.code.length
  (generateFunction f tbl st, offs)

/-- `AKMCodeGen.generate`: build the string table from the IR strings,
emit every IR function (recording each function's start offset first),
build the command stubs from the parser's command list, resolve the
fixups, and assemble the data section. -/
def AKMCodeGen.generate (pr : ParseResult) : CodegenResult :=
  let stringTable := AKMCodeGen.buildStringTable pr.ir.strings
  let (st, functionOffsets) := pr.ir.functions.foldl
    (genStep stringTable) (⟨[], [], []⟩, [])
  let commandStubs := generateCommandStubs pr.commands stringTable
    functionOffsets
  let code := resolveFixups st
  let dataSection := buildDataSection stringTable commandStubs
  { code := code,
    data := dataSection,
    strings := pr.ir.strings,
    functions := functionOffsets,
    commands := pr.ir.commands,
    initOffset := (assocGet functionOffsets "init").getD 0,
    exitOffset := (assocGet functionOffsets "exit").getD 0,
    codeSize := code.length,
    dataSize := dataSection.length }

/-! ## Module info (`AKMCompiler.extractModuleInfo`) -/

/-- CLI/compiler options relevant to compilation (`AKMCompiler`
constructor; `capabilities` is the already-parsed override mask, `null`
when no `-c` or `--caps` flag was given). -/
structure Options where
  debug : Bool := false
  optimize : Bool := false
  verbose : Bool := false
  capabilities : Option Nat := none
deriving Repr, DecidableEq

/-- The module-info record passed to the binary writer. -/
structure ModuleInfo where
  name : String
  version : String
  author : String
  description : String
  license : String
  capabilities : Nat
  apiVersion : Nat
  kernelMinVersion : Nat
  kernelMaxVersion : Nat
  dependencies : List String
  securityLevel : Nat
deriving Repr, DecidableEq

/-- A dependency entry as a string (the writer only writes string
entries; a falsy entry is skipped, which coincides with writing the
empty string). -/
def jsValStr : JSVal → String
  | .str s => s
  | _ => ""

/-- `config.capabilities || 0` after the parse-time merge. -/
def cfgCaps (cfg : List (String × CfgVal)) : Nat :=
  match assocGet cfg "capabilities" with
  | some cv => if cfgTruthy cv then cfgValToCaps cv else 0
  | none => 0

/-- `AKMCompiler.extractModuleInfo`. -/
def extractModuleInfo (opts : Options) (pr : ParseResult) : ModuleInfo :=
  let cfg := pr.moduleConfig.getD []
  { name := cfgStrOr cfg "name" "unnamed",
    version := cfgStrOr cfg "version" "1.0.0",
    author := cfgStrOr cfg "author" "",
    description := cfgStrOr cfg "description" "",
    license := cfgStrOr cfg "license" "MIT",
    capabilities :=
      -- this.options.capabilities || config.capabilities || 0
      (match opts.capabilities with
       | some c => if c ≠ 0 then c else cfgCaps cfg
       | none => cfgCaps cfg),
    apiVersion := 0x0200,
    kernelMinVersion := 0x00080000,
    kernelMaxVersion := 0,
    dependencies :=
      (match assocGet cfg "dependencies" with
       | some (.arr l) => l.map jsValStr
       | _ => []),
    securityLevel :=
      -- config.securityLevel || 0
      (match assocGet cfg "securityLevel" with
       | some (.v (.num i)) => if i ≠ 0 then (i % 4294967296).toNat else 0
       | _ => 0) }

/-! ## Binary writer (`binary.js`, `AKMBinaryWriter`) -/

/-- The `(nameOffset, value)` pairs of `buildSymbolTable`: the running
name offset grows by `name.length + 1` per function, the value is the
function's code offset. -/
def symbolRecords (functions : List (String × Nat)) : List (Nat × Nat) :=
  (functions.foldl
    (fun (acc : List (Nat × Nat) × Nat) nf =>
      let (rs, nameOffset) := acc
      (rs ++ [(nameOffset, nf.2)], nameOffset + nf.1.length + 1))
    ([], 0)).1

/-- `AKMBinaryWriter.buildSymbolTable`: one 12-byte record per function
— u32 name offset, u32 value, u16 size 0, u8 type `SYM_FUNC`, u8
binding `BIND_GLOBAL`. -/
def AKMBinaryWriter.buildSymbolTable (cg : CodegenResult) : List Nat :=
  (symbolRecords cg.functions).foldl
    (fun acc r => acc ++ le32 r.1 ++ le32 r.2 ++ le16 0 ++
      [AKM_FORMAT.SYM_FUNC, AKM_FORMAT.BIND_GLOBAL])
    []

/-- `AKMBinaryWriter.buildStringTable`: the NUL-terminated strings. -/
def AKMBinaryWriter.buildStringTable (strings : List String) : List Nat :=
  strings.foldl (fun acc s => acc ++ strBytes s ++ [0]) []

/-- One 32-byte dependency slot of the header: written when
`i < depCount` and the entry is truthy, otherwise the zero bytes of the
allocated buffer (writing an empty string produces the same bytes). -/
def depSlot (deps : List String) (depCount : Nat) (i : Nat) : List Nat :=
  if i < depCount then fixedStr (strBytes (deps.getD i "")) 32 else zeros 32

/-- The 128-byte `dependencies[4][32]` region. -/
def depsBlock (deps : List String) : List Nat :=
  let depCount := min deps.length 4
  (List.range 4).foldl (fun acc i => acc ++ depSlot deps depCount i) []

/-- Header bytes `[0, 348)` — every field write of
`AKMBinaryWriter.write` before the checksum slots, in source order at
the source's byte-exact offsets (the writes are at strictly increasing
offsets into a zero buffer, so they concatenate). -/
def headerPre (mi : ModuleInfo) (debugFlag : Bool)
    (totalSize codeOffset codeSize dataOffset dataSize initOffset
      exitOffset symtabOffset symtabSize strtabOffset strtabSize : Nat) :
    List Nat :=
  le32 0x324D4B41 ++                                    -- 0: magic "AKM2"
  le16 2 ++                                             -- 4: format_version
  le16 (if debugFlag then 1 else 0) ++                  -- 6: flags
  le32 512 ++                                           -- 8: header_size
  le32 totalSize ++                                     -- 12: total_size
  fixedStr (strBytes mi.name) 32 ++                     -- 16: name
  fixedStr (strBytes mi.version) 16 ++                  -- 48: version
  fixedStr (strBytes mi.author) 32 ++                   -- 64: author
  le16 (mi.apiVersion % 65536) ++                       -- 96: api_version
  zeros 2 ++                                            -- 98: reserved1
  le32 mi.kernelMinVersion ++                           -- 100
  le32 mi.kernelMaxVersion ++                           -- 104
  le32 mi.capabilities ++                               -- 108
  zeros 4 ++                                            -- 112: reserved2
  le32 codeOffset ++                                    -- 116
  le32 codeSize ++                                      -- 120
  le32 dataOffset ++                                    -- 124
  le32 dataSize ++                                      -- 128
  le32 0 ++                                             -- 132: rodata_offset
  le32 0 ++                                             -- 136: rodata_size
  le32 0 ++                                             -- 140: bss_size
  zeros 20 ++                                           -- 144: reserved3
  le32 initOffset ++                                    -- 164
  le32 exitOffset ++                                    -- 168: cleanup_offset
  zeros 8 ++                                            -- 172: reserved4
  le32 symtabOffset ++                                  -- 180
  le32 symtabSize ++                                    -- 184
  le32 strtabOffset ++                                  -- 188
  le32 strtabSize ++                                    -- 192
  zeros 16 ++                                           -- 196: reserved5
  [min mi.dependencies.length 4 % 256] ++               -- 212: dep_count
  zeros 3 ++                                            -- 213: reserved6
  depsBlock mi.dependencies ++                          -- 216
  [mi.securityLevel % 256] ++                           -- 344
  [0] ++                                                -- 345: signature_type
  zeros 2                                               -- 346: reserved7

/-- Header bytes `[352, 512)`: the 64-byte signature, 28 reserved
bytes, and the 64-byte padding — all zero. -/
def headerTail : List Nat := zeros 64 ++ zeros 28 ++ zeros 64

/-- `AKMBinaryWriter.write`: compute the tables and section offsets,
build the header (the debug option toggles flag bit 0), write the
content checksum at offset 352, compute the header checksum over the
header with its own 4-byte slot (at 348) excluded, and concatenate
header ⧺ code ⧺ data ⧺ symtab ⧺ strtab. -/
def AKMBinaryWriter.write (opts : Options) (cg : CodegenResult)
    (mi : ModuleInfo) : List Nat :=
  let code := cg.code
  let data := cg.data
  let symtab := AKMBinaryWriter.buildSymbolTable cg
  let strtab := AKMBinaryWriter.buildStringTable cg.strings
  let headerSize := 512
  let codeOffset := headerSize
  let codeSize := code.length
  let dataOffset := codeOffset + codeSize
  let dataSize := data.length
  let symtabOffset := dataOffset + dataSize
  let symtabSize := symtab.length
  let strtabOffset := symtabOffset + symtabSize
  let strtabSize := strtab.length
  let totalSize := strtabOffset + strtabSize
  let hpre := headerPre mi opts.debug totalSize codeOffset codeSize
    dataOffset dataSize cg.initOffset cg.exitOffset symtabOffset symtabSize
    strtabOffset strtabSize
  let contentChecksum := calculateChecksum (code ++ data ++ symtab ++ strtab)
  let headerChecksum :=
    calculateChecksum (hpre ++ le32 contentChecksum ++ headerTail)
  hpre ++ le32 headerChecksum ++ le32 contentChecksum ++ headerTail ++
    code ++ data ++ symtab ++ strtab

/-! ## Compiler (`src/compiler.js`, `AKMCompiler`) -/

/-- Errors raised by `AKMCompiler.compile`.  The first four are the
structural `throw new Error(...)`s of `validateModule`;
`optimizerTypeError` is the TypeError raised when the optimizer is
applied (see `AKMCompiler.compile`). -/
inductive CompileError where
  | noModuleConfig
  | noName
  | noInit
  | noExit
  | optimizerTypeError
deriving Repr, DecidableEq

/-- Whether an error is one of `validateModule`'s structural errors. -/
def CompileError.isStructural : CompileError → Bool
  | .optimizerTypeError => false
  | _ => true

/-- `!moduleConfig.name`. -/
def nameFalsy (cfg : List (String × CfgVal)) : Bool :=
  match assocGet cfg "name" with
  | some cv => ¬ cfgTruthy cv
  | none => true

/-- `AKMCompiler.validateModule`, check for check.  (The
`!moduleConfig` guard can only fire for a `parseResult` without a
config object; `AKMParser.parse` always produces one, so a source
without any `AKM.module` call fails the *name* check.) -/
def AKMCompiler.validateModule (pr : ParseResult) :
    Except CompileError Unit :=
  match pr.moduleConfig with
  | none => .error .noModuleConfig
  | some cfg =>
      if nameFalsy cfg then .error .noName
      else if (assocGet pr.functions "init").isNone then .error .noInit
      else if (assocGet pr.functions "exit").isNone then .error .noExit
      else .ok ()

/-- The object returned by a successful `AKMCompiler.compile`. -/
structure CompileOutput where
  binary : List Nat
  info : ModuleInfo
  codeSize : Nat
  dataSize : Nat
deriving Repr, DecidableEq

/-- `AKMCompiler.compile`: validate, extract the module info, run the
code generator, and write the binary.

When `options.optimize` is set, the source passes the *code-generator
result* to `AKMOptimizer.optimize` (`let ir = this.codegen.generate(...);
if (this.options.optimize) ir = this.optimizer.optimize(ir);`).  That
object's `functions` field is the name→offset `Map`, whose entries
(`[name, offset]` arrays) have no `instructions` property, so the
optimizer's first `for (const instr of func.instructions)` loop throws
`TypeError: undefined is not iterable` before anything is written; the
surrounding CLI catches it and exits 1.  This failure is modelled as
the `optimizerTypeError` value. -/
def AKMCompiler.compile (opts : Options) (pr : ParseResult) :
    Except CompileError CompileOutput := do
  AKMCompiler.validateModule pr
  let mi := extractModuleInfo opts pr
  let cg := AKMCodeGen.generate pr
  if opts.optimize then
    throw CompileError.optimizerTypeError
  else
    pure { binary := AKMBinaryWriter.write opts cg mi, info := mi,
           codeSize := cg.codeSize, dataSize := cg.dataSize }

/-! ## Inspector (`bin/akmcc.js`, `showModuleInfo`) -/

/-- Reading a u16 little-endian (`Buffer.readUInt16LE`). -/
def readU16 (l : List Nat) (off : Nat) : Nat :=
  l.getD off 0 + 256 * l.getD (off + 1) 0

/-- `data.toString('utf8', a, b).replace(/\0.*$/, '')`: the bytes of
`[a, b)` truncated at the first NUL. -/
def readStrRange (l : List Nat) (a b : Nat) : List Nat :=
  ((l.drop a).take (b - a)).takeWhile (fun c => c ≠ 0)

/-- An uppercase hexadecimal digit (`toString(16).toUpperCase()`). -/
def hexDigitU (n : Nat) : Char :=
  if n < 10 then Char.ofNat (48 + n) else Char.ofNat (55 + n)

/-- `n.toString(16).toUpperCase()` for a natural number. -/
def hexU (n : Nat) : List Char :=
  if n < 16 then [hexDigitU n]
  else hexU (n / 16) ++ [hexDigitU (n % 16)]
decreasing_by omega

/-- The header fields decoded by `showModuleInfo`. -/
structure InspectInfo where
  formatVersion : Nat
  flags : Nat
  headerSize : Nat
  totalSize : Nat
  name : List Nat
  version : List Nat
  author : List Nat
  apiVersion : Nat
  kernelMin : Nat
  kernelMax : Nat
  capabilities : Nat
  codeOffset : Nat
  codeSize : Nat
  dataOffset : Nat
  dataSize : Nat
  rodataOffset : Nat
  rodataSize : Nat
  bssSize : Nat
  initOffset : Nat
  cleanupOffset : Nat
  symtabOffset : Nat
  symtabSize : Nat
  strtabOffset : Nat
  strtabSize : Nat
  depCount : Nat
  dependencies : List (List Nat)
  securityLevel : Nat
  signatureType : Nat
  headerChecksum : Nat
  contentChecksum : Nat
deriving Repr, DecidableEq

/-- The `too small` error message. -/
def tooSmallMsg : List Char := "Invalid AKM file: too small".toList

/-- The magic-mismatch error message, ending in the observed magic in
uppercase hexadecimal. -/
def badMagicMsg (magic : Nat) : List Char :=
  "Invalid magic: expected 0x324D4B41 (AKM2), got 0x".toList ++ hexU magic

/-- `showModuleInfo` on the bytes of an existing file: a length below
512 or a wrong magic aborts with `process.exit(1)` after printing the
error; otherwise every header field is decoded and reported.  The
`Except` error carries the printed message. -/
def showModuleInfo (data : List Nat) : Except (List Char) InspectInfo :=
  if data.length < 512 then .error tooSmallMsg
  else
    let magic := readU32 data 0
    if magic ≠ 0x324D4B41 then .error (badMagicMsg magic)
    else
      let depCount := data.getD 212 0
      .ok {
        formatVersion := readU16 data 4,
        flags := readU16 data 6,
        headerSize := readU32 data 8,
        totalSize := readU32 data 12,
        name := readStrRange data 16 48,
        version := readStrRange data 48 64,
        author := readStrRange data 64 96,
        apiVersion := readU16 data 96,
        kernelMin := readU32 data 100,
        kernelMax := readU32 data 104,
        capabilities := readU32 data 108,
        codeOffset := readU32 data 116,
        codeSize := readU32 data 120,
        dataOffset := readU32 data 124,
        dataSize := readU32 data 128,
        rodataOffset := readU32 data 132,
        rodataSize := readU32 data 136,
        bssSize := readU32 data 140,
        initOffset := readU32 data 164,
        cleanupOffset := readU32 data 168,
        symtabOffset := readU32 data 180,
        symtabSize := readU32 data 184,
        strtabOffset := readU32 data 188,
        strtabSize := readU32 data 192,
        depCount := depCount,
        dependencies :=
          ((List.range (min depCount 4)).map
            (fun i => readStrRange data (216 + i * 32) (216 + (i + 1) * 32))
          ).filter (fun d => d ≠ []),
        securityLevel := data.getD 344 0,
        signatureType := data.getD 345 0,
        headerChecksum := readU32 data 348,
        contentChecksum := readU32 data 352 }

/-- The process exit status of an `--info` run on the given file bytes
(1 on any inspection error, 0 after a successful report). -/
def inspectExitCode (data : List Nat) : Nat :=
  match showModuleInfo data with
  | .error _ => 1
  | .ok _ => 0

/-! ## Concrete inputs used by the verification -/

/-- The AST of the minimal module of spec scenario 1:
`AKM.module({name:"a"})`, an `init` whose body is `return 0;`, and an
empty `exit`. -/
def minimalAst : Node :=
  .program [
    .exprStmt (.callExpr (.memberExpr (.identifier "AKM") "module")
      [.objectExpr [("name", .literal (.str "a"))]]),
    .funcDecl "init" [] [.returnStmt (some (.literal (.num 0)))],
    .funcDecl "exit" [] []]

def minimalParse : ParseResult := AKMParser.parse minimalAst

def minimalCG : CodegenResult := AKMCodeGen.generate minimalParse

def minimalMI : ModuleInfo := extractModuleInfo {} minimalParse

/-- The minimal-module artifact (default options: no debug, no
optimization, no capability override). -/
def minimalArtifact : List Nat := AKMBinaryWriter.write {} minimalCG minimalMI

/-- The AST of spec scenario 3: a module whose `init` body is
`return 2 + 3;` (plus the required empty `exit`). -/
def foldAst : Node :=
  .program [
    .exprStmt (.callExpr (.memberExpr (.identifier "AKM") "module")
      [.objectExpr [("name", .literal (.str "m"))]]),
    .funcDecl "init" []
      [.returnStmt (some (.binExpr "+" (.literal (.num 2))
        (.literal (.num 3))))],
    .funcDecl "exit" [] []]

def foldParse : ParseResult := AKMParser.parse foldAst

/-- The capabilities expression of the shipped example module
(`hello.akm.js`): `AKM.CAPS.COMMAND | AKM.CAPS.LOG`. -/
def capsOrExpr : Node :=
  .binExpr "|"
    (.memberExpr (.memberExpr (.identifier "AKM") "CAPS") "COMMAND")
    (.memberExpr (.memberExpr (.identifier "AKM") "CAPS") "LOG")

/-! ## C7: symbol-table offsets -/

/-- `st'` extends `st`'s code buffer (every codegen emit only appends). -/
def CodeExt (st st' : CGState) : Prop := ∃ e, st'.code = st.code ++ e

/-- Projection of the error of an `Except` result. -/
def exceptErr {α : Type} : Except CompileError α → Option CompileError
  | .error e => some e
  | .ok _ => none

/-! ## C8: structural validation errors -/

/-- A parse result with no `AKM.module` call at all (used as the C8
witness input: its extracted config has no `name`, and there is no
`init` or `exit` function). -/
def emptyParse : ParseResult := AKMParser.parse (.program [])

/-- The capability-fold step of `computeRequiredCapabilities`. -/
def capStep (caps : Nat) (call : APICall) : Nat :=
  match apiLookup call.method with
  | some apiInfo => caps ||| apiInfo.capability
  | none => caps

/-- The witness source for C4: a module calling `AKM.getTicks()` in
`init` (capability `TIMER = 0x400`). -/
def capsAst : Node :=
  .program [
    .exprStmt (.callExpr (.memberExpr (.identifier "AKM") "module")
      [.objectExpr [("name", .literal (.str "w"))]]),
    .funcDecl "init" []
      [.exprStmt (.callExpr (.memberExpr (.identifier "AKM") "getTicks") []),
       .returnStmt (some (.literal (.num 0)))],
    .funcDecl "exit" [] []]

@[simp] theorem le16_length (v : Nat) : (le16 v).length = 2 := rfl

@[simp] theorem le32_length (v : Nat) : (le32 v).length = 4 := rfl

@[simp] theorem zeros_length (n : Nat) : (zeros n).length = n :=
  List.length_replicate ..

@[simp] theorem fixedStr_length (s : List Nat) (n : Nat) :
    (fixedStr s n).length = n := by
  have ht : (s.take (n - 1)).length ≤ n - 1 := List.length_take_le ..
  simp only [fixedStr, List.length_append, zeros_length]
  omega

theorem chkStep_lt (acc b : Nat) : chkStep acc b < 4294967296 := by
  unfold chkStep
  have h1 : 2 * ((acc + b) % 4294967296) % 4294967296 < 2 ^ 32 := by
    have := Nat.mod_lt (2 * ((acc + b) % 4294967296)) (y := 4294967296) (by omega)
    omega
  have h2 : (acc + b) % 4294967296 / 2147483648 < 2 ^ 32 := by
    have := Nat.mod_lt (acc + b) (y := 4294967296) (by omega)
    omega
  have := Nat.or_lt_two_pow h1 h2
  omega

theorem foldl_chkStep_lt (l : List Nat) :
    ∀ acc, acc < 4294967296 → l.foldl chkStep acc < 4294967296 := by
  induction l with
  | nil => intro acc h; exact h
  | cons x xs ih => intro acc _; exact ih _ (chkStep_lt acc x)

theorem calculateChecksum_lt (data : List Nat) :
    calculateChecksum data < 4294967296 :=
  foldl_chkStep_lt data 0 (by omega)

/-! ## Byte-layout lemmas -/

theorem readU32_eq_drop (l : List Nat) (off : Nat) :
    readU32 l off = readU32 (l.drop off) 0 := by
  unfold readU32
  simp [List.getD_eq_getElem?_getD, List.getElem?_drop]

theorem readU32_skip (l1 l2 : List Nat) (k : Nat) :
    readU32 (l1 ++ l2) (l1.length + k) = readU32 l2 k := by
  rw [readU32_eq_drop, List.drop_append, ← readU32_eq_drop]

theorem readU32_skipN (l1 l2 : List Nat) (n k : Nat) (h : l1.length = n) :
    readU32 (l1 ++ l2) (n + k) = readU32 l2 k := by
  subst h; exact readU32_skip l1 l2 k

theorem readU32_cons4 (a b c d : Nat) (l : List Nat) :
    readU32 (a :: b :: c :: d :: l) 0 =
      a + 256 * b + 65536 * c + 16777216 * d := rfl

theorem readU32_le32 (v : Nat) (l : List Nat) :
    readU32 (le32 v ++ l) 0 = v % 4294967296 := by
  show readU32 (v % 256 :: v / 256 % 256 :: v / 65536 % 256 ::
    v / 16777216 % 256 :: l) 0 = v % 4294967296
  rw [readU32_cons4]
  omega

theorem depSlot_length (deps : List String) (c i : Nat) :
    (depSlot deps c i).length = 32 := by
  unfold depSlot
  split
  · exact fixedStr_length ..
  · simp

theorem depsBlock_length (deps : List String) :
    (depsBlock deps).length = 128 := by
  have h : List.range 4 = [0, 1, 2, 3] := rfl
  simp [depsBlock, h, depSlot_length]

theorem headerTail_length : headerTail.length = 156 := rfl

theorem headerPre_length (mi : ModuleInfo) (fl : Bool)
    (t co cs dof ds io eo so ss sto sts : Nat) :
    (headerPre mi fl t co cs dof ds io eo so ss sto sts).length = 348 := by
  simp [headerPre, depsBlock_length, fixedStr_length]

theorem readU32_headerPre_12 (mi : ModuleInfo) (fl : Bool)
    (t co cs dof ds io eo so ss sto sts : Nat) (rest : List Nat) :
    readU32 (headerPre mi fl t co cs dof ds io eo so ss sto sts ++ rest) 12 =
      t % 4294967296 := by
  simp only [headerPre, List.append_assoc]
  rw [show (12 : Nat) = 4 + 8 by norm_num, readU32_skipN _ _ 4 8 (by simp)]
  rw [show (8 : Nat) = 2 + 6 by norm_num, readU32_skipN _ _ 2 6 (by simp)]
  rw [show (6 : Nat) = 2 + 4 by norm_num, readU32_skipN _ _ 2 4 (by simp)]
  rw [show (4 : Nat) = 4 + 0 by norm_num, readU32_skipN _ _ 4 0 (by simp)]
  exact readU32_le32 ..

theorem write_length (opts : Options) (cg : CodegenResult) (mi : ModuleInfo) :
    (AKMBinaryWriter.write opts cg mi).length =
      512 + cg.code.length + cg.data.length +
      (AKMBinaryWriter.buildSymbolTable cg).length +
      (AKMBinaryWriter.buildStringTable cg.strings).length := by
  simp only [AKMBinaryWriter.write, List.length_append, headerPre_length,
    headerTail_length, le32_length]

/-- **C1** — for every compilation that succeeds (i.e. for every
artifact the writer returns), the artifact's byte length equals the
`total_size` value written at header offset 12, `total_size` equals
`512 + code_size + data_size + symtab_size + strtab_size`, and the
first four bytes are the little-endian magic `0x324D4B41`.  The
hypothesis is the `writeUInt32LE` range check: an overflowing total
size would make the source throw instead of returning an artifact. -/
theorem c1_total_size_and_magic (opts : Options) (cg : CodegenResult)
    (mi : ModuleInfo)
    (h : 512 + cg.code.length + cg.data.length +
        (AKMBinaryWriter.buildSymbolTable cg).length +
        (AKMBinaryWriter.buildStringTable cg.strings).length < 4294967296) :
    (AKMBinaryWriter.write opts cg mi).length =
      readU32 (AKMBinaryWriter.write opts cg mi) 12 ∧
    readU32 (AKMBinaryWriter.write opts cg mi) 12 =
      512 + cg.code.length + cg.data.length +
      (AKMBinaryWriter.buildSymbolTable cg).length +
      (AKMBinaryWriter.buildStringTable cg.strings).length ∧
    (AKMBinaryWriter.write opts cg mi).take 4 = [0x41, 0x4B, 0x4D, 0x32] := by
  have h12 : readU32 (AKMBinaryWriter.write opts cg mi) 12 =
      (512 + cg.code.length + cg.data.length +
        (AKMBinaryWriter.buildSymbolTable cg).length +
        (AKMBinaryWriter.buildStringTable cg.strings).length) % 4294967296 := by
    simp only [AKMBinaryWriter.write, List.append_assoc]
    rw [readU32_headerPre_12]
  refine ⟨?_, ?_, ?_⟩
  · rw [h12, write_length]; omega
  · rw [h12]; omega
  · simp only [AKMBinaryWriter.write, headerPre, List.append_assoc]
    rw [show le32 0x324D4B41 = [0x41, 0x4B, 0x4D, 0x32] from rfl]
    exact List.take_left' rfl

/-- Closed witness for `c1_total_size_and_magic` at the minimal
module's code-generation result. -/
theorem c1_total_size_and_magic_witness :
    (512 + minimalCG.code.length + minimalCG.data.length +
        (AKMBinaryWriter.buildSymbolTable minimalCG).length +
        (AKMBinaryWriter.buildStringTable minimalCG.strings).length <
      4294967296) ∧
    ((AKMBinaryWriter.write {} minimalCG minimalMI).length =
      readU32 (AKMBinaryWriter.write {} minimalCG minimalMI) 12 ∧
    readU32 (AKMBinaryWriter.write {} minimalCG minimalMI) 12 =
      512 + minimalCG.code.length + minimalCG.data.length +
      (AKMBinaryWriter.buildSymbolTable minimalCG).length +
      (AKMBinaryWriter.buildStringTable minimalCG.strings).length ∧
    (AKMBinaryWriter.write {} minimalCG minimalMI).take 4 =
      [0x41, 0x4B, 0x4D, 0x32]) :=
  ⟨by decide, c1_total_size_and_magic {} minimalCG minimalMI (by decide)⟩

theorem take_drop_header (A B C D S : List Nat) (ha : A.length = 348)
    (hb : B.length = 4) (hc : C.length = 4) (hd : D.length = 156) :
    ((A ++ (B ++ (C ++ (D ++ S)))).take 512).take 348 = A ∧
    ((A ++ (B ++ (C ++ (D ++ S)))).take 512).drop 352 = C ++ D := by
  have hgroup : A ++ (B ++ (C ++ (D ++ S))) = (A ++ B ++ C ++ D) ++ S := by
    simp [List.append_assoc]
  have hlen : (A ++ B ++ C ++ D).length = 512 := by
    simp [ha, hb, hc, hd]
  rw [hgroup, List.take_left' hlen]
  constructor
  · have hg2 : A ++ B ++ C ++ D = A ++ (B ++ C ++ D) := by
      simp [List.append_assoc]
    rw [hg2, List.take_left' ha]
  · have hg3 : A ++ B ++ C ++ D = (A ++ B) ++ (C ++ D) := by
      simp [List.append_assoc]
    rw [hg3, List.drop_left' (by simp [ha, hb])]

theorem write_shape_header_checksum (A C D S : List Nat)
    (ha : A.length = 348) (hc : C.length = 4) (hd : D.length = 156) :
    readU32
        (A ++ (le32 (calculateChecksum (A ++ (C ++ D))) ++ (C ++ (D ++ S))))
        348 =
      calculateChecksum
        (((A ++ (le32 (calculateChecksum (A ++ (C ++ D))) ++
            (C ++ (D ++ S)))).take 512).take 348 ++
         ((A ++ (le32 (calculateChecksum (A ++ (C ++ D))) ++
            (C ++ (D ++ S)))).take 512).drop 352) := by
  obtain ⟨h1, h2⟩ := take_drop_header A
    (le32 (calculateChecksum (A ++ (C ++ D)))) C D S ha (le32_length _) hc hd
  rw [h1, h2]
  rw [show (348 : Nat) = 348 + 0 by norm_num, readU32_skipN _ _ 348 0 ha,
    readU32_le32, Nat.mod_eq_of_lt (calculateChecksum_lt _)]

/-- **C2** — for every artifact the writer returns: the u32 at header
offset 352 is the rolling checksum of `code ⧺ data ⧺ symtab ⧺ strtab`,
and the u32 at offset 348 is the rolling checksum of the 512-byte
header with bytes `[348, 352)` removed (computed after the content
checksum has been written into the header, which the byte equality on
the right-hand side reflects: the slice `[352, 512)` of the final
header contains the content checksum). -/
theorem c2_checksums (opts : Options) (cg : CodegenResult)
    (mi : ModuleInfo) :
    readU32 (AKMBinaryWriter.write opts cg mi) 352 =
      calculateChecksum (cg.code ++ cg.data ++
        AKMBinaryWriter.buildSymbolTable cg ++
        AKMBinaryWriter.buildStringTable cg.strings) ∧
    readU32 (AKMBinaryWriter.write opts cg mi) 348 =
      calculateChecksum
        (((AKMBinaryWriter.write opts cg mi).take 512).take 348 ++
         ((AKMBinaryWriter.write opts cg mi).take 512).drop 352) := by
  constructor
  · simp only [AKMBinaryWriter.write, List.append_assoc]
    rw [show (352 : Nat) = 348 + 4 by norm_num,
      readU32_skipN _ _ 348 4 (headerPre_length ..)]
    rw [show (4 : Nat) = 4 + 0 by norm_num, readU32_skipN _ _ 4 0 (by simp)]
    rw [readU32_le32, Nat.mod_eq_of_lt (calculateChecksum_lt _)]
  · simp only [AKMBinaryWriter.write, List.append_assoc]
    exact write_shape_header_checksum _ _ _ _ (headerPre_length ..)
      (le32_length _) headerTail_length

/-- **C3 counterexample** — compiling the minimal module does *not*
produce an empty data section and its strtab does *not* contain `"a"`:
the data section is the 10 bytes `"init\0exit\0"` (the codegen data
section always embeds the string table), the header's `data_size` field
reads 10, and the byte `0x61` (`'a'`) occurs nowhere in the emitted
strtab — the module name is never added to the IR string table. -/
theorem c3_counterexample :
    (AKMCodeGen.generate minimalParse).data.length = 10 ∧
    readU32 minimalArtifact 128 = 10 ∧
    (AKMCodeGen.generate minimalParse).data =
      [105, 110, 105, 116, 0, 101, 120, 105, 116, 0] ∧
    (AKMBinaryWriter.buildStringTable
        (AKMCodeGen.generate minimalParse).strings).contains 97 = false := by
  decide!

/-- **C3 amended** — compiling the minimal module (`AKM.module({name:
"a"})`, `init` returning 0, empty `exit`) yields: a 565-byte artifact
with magic `0x324D4B41`; code `NOP, PUSH 0, RET` for `init` followed by
`NOP, RET` for `exit` (9 bytes at offset 512); a 10-byte data section
holding the NUL-terminated strings `"init", "exit"`; a 24-byte symbol
table (2 × 12); a trailing strtab equal to the same
`"init\0exit\0"` bytes (no `"a"`); and capabilities `LOG = 0x800`. -/
theorem c3_minimal_module :
    minimalArtifact.length = 565 ∧
    minimalArtifact.take 4 = [0x41, 0x4B, 0x4D, 0x32] ∧
    readU32 minimalArtifact 120 = 9 ∧
    (minimalArtifact.drop 512).take 9 =
      [OPCODES.NOP, OPCODES.PUSH, 0, 0, 0, 0, OPCODES.RET,
       OPCODES.NOP, OPCODES.RET] ∧
    readU32 minimalArtifact 128 = 10 ∧
    (minimalArtifact.drop 521).take 10 =
      [105, 110, 105, 116, 0, 101, 120, 105, 116, 0] ∧
    readU32 minimalArtifact 184 = 24 ∧
    readU32 minimalArtifact 192 = 10 ∧
    minimalArtifact.drop 555 =
      [105, 110, 105, 116, 0, 101, 120, 105, 116, 0] ∧
    readU32 minimalArtifact 108 = CAPABILITIES.LOG := by decide!

theorem codeExt_refl (st : CGState) : CodeExt st st := ⟨[], by simp⟩

theorem codeExt_emit {s st : CGState} (b : Nat) (h : CodeExt s st) :
    CodeExt s (emit st b) := by
  obtain ⟨e, he⟩ := h
  exact ⟨e ++ [b % 256], by simp [emit, he]⟩

theorem codeExt_emitI {s st : CGState} (i : Int) (h : CodeExt s st) :
    CodeExt s (emitI st i) := by
  obtain ⟨e, he⟩ := h
  exact ⟨e ++ [(i % 256).toNat], by simp [emitI, he]⟩

theorem codeExt_emitInt32 {s st : CGState} (v : Int) (h : CodeExt s st) :
    CodeExt s (emitInt32 st v) := by
  obtain ⟨e, he⟩ := h
  exact ⟨e ++ le32 ((v % 4294967296).toNat), by simp [emitInt32, he]⟩

theorem codeExt_emitValue {s st : CGState} (v : Option JSVal)
    (tbl : StringTable) (h : CodeExt s st) : CodeExt s (emitValue st v tbl) := by
  unfold emitValue
  cases v with
  | none => exact codeExt_emitInt32 _ h
  | some jv => cases jv <;> exact codeExt_emitInt32 _ h

theorem codeExt_addFixup {s st : CGState} (lbl : String) (h : CodeExt s st) :
    CodeExt s (addFixup st lbl) := by
  obtain ⟨e, he⟩ := h
  exact ⟨e, by simp [addFixup, he]⟩

set_option maxHeartbeats 1000000 in
theorem codeExt_generateInstruction (i : Instr) (tbl : StringTable)
    (f : IRFunc) {s st : CGState} (h : CodeExt s st) :
    CodeExt s (generateInstruction i tbl f st) := by
  unfold generateInstruction
  repeat' split
  all_goals first
    | exact codeExt_emitValue _ _ (codeExt_emit _ h)
    | exact codeExt_emit _ (codeExt_emit _ h)
    | exact codeExt_emitInt32 _ (codeExt_emit _ h)
    | exact codeExt_emitI _ (codeExt_emit _ (codeExt_emitValue _ _
        (codeExt_emit _ h)))
    | exact codeExt_emitI _ (codeExt_emit _ h)
    | exact codeExt_emit _ (codeExt_emitInt32 _ (codeExt_addFixup _
        (codeExt_emit _ h)))
    | exact codeExt_emit _ (codeExt_emit _ (codeExt_emit _ h))
    | exact codeExt_emit _ h

theorem codeExt_foldl_instrs (l : List Instr) (tbl : StringTable)
    (f : IRFunc) : ∀ {s st : CGState}, CodeExt s st →
    CodeExt s (l.foldl (fun st i => generateInstruction i tbl f st) st) := by
  induction l with
  | nil => intro s st h; exact h
  | cons i l ih =>
      intro s st h
      exact ih (codeExt_generateInstruction i tbl f h)

theorem codeExt_foldl_locals (l : List String) :
    ∀ {s st : CGState}, CodeExt s st →
    CodeExt s (l.foldl (fun st _ => emitInt32 (emit st OPCODES.PUSH) 0) st) := by
  induction l with
  | nil => intro s st h; exact h
  | cons x l ih =>
      intro s st h
      exact ih (codeExt_emitInt32 _ (codeExt_emit _ h))

/-- Every emitted function starts with the `NOP` prologue byte, so the
code buffer grows past the recorded start offset. -/
theorem generateFunction_code (f : IRFunc) (tbl : StringTable)
    (st : CGState) : ∃ e, (generateFunction f tbl st).code =
      st.code ++ 0 :: e := by
  unfold generateFunction
  obtain ⟨e, he⟩ := codeExt_foldl_instrs f.instructions tbl f
    (codeExt_foldl_locals f.locals (codeExt_refl
      (emit { st with labels := upsert st.labels f.name st.code.length }
        OPCODES.NOP)))
  refine ⟨e, ?_⟩
  rw [he]
  simp [emit, OPCODES.NOP]

theorem mem_upsert {α : Type} (l : List (String × α)) (k : String) (x : α)
    (p : String × α) (hp : p ∈ upsert l k x) : p ∈ l ∨ p = (k, x) := by
  unfold upsert at hp
  split at hp
  · obtain ⟨q, hq, he⟩ := List.mem_map.mp hp
    by_cases hqk : q.1 = k
    · rw [if_pos hqk] at he
      exact Or.inr he.symm
    · rw [if_neg hqk] at he
      exact Or.inl (he ▸ hq)
  · rcases List.mem_append.mp hp with h | h
    · exact Or.inl h
    · exact Or.inr (List.mem_singleton.mp h)

theorem patch32_length (code : List Nat) (off t : Nat) :
    (patch32 code off t).length = code.length := by
  simp [patch32]

theorem resolveFixups_length (st : CGState) :
    (resolveFixups st).length = st.code.length := by
  unfold resolveFixups
  suffices h : ∀ (fxs : List (Nat × String)) (c : List Nat),
      (fxs.foldl (fun code fx =>
        match assocGet st.labels fx.2 with
        | some target => patch32 code fx.1 target
        | none => code) c).length = c.length by
    exact h st.fixups st.code
  intro fxs
  induction fxs with
  | nil => intro c; rfl
  | cons fx fxs ih =>
      intro c
      rw [List.foldl_cons, ih]
      cases assocGet st.labels fx.2 with
      | none => rfl
      | some t => exact patch32_length ..

theorem genFold_inv (tbl : StringTable) (fs : List IRFunc) :
    ∀ (st : CGState) (offs : List (String × Nat)),
      (∀ p ∈ offs, p.2 < st.code.length) →
      ∀ p ∈ (fs.foldl (genStep tbl) (st, offs)).2,
        p.2 < (fs.foldl (genStep tbl) (st, offs)).1.code.length := by
  induction fs with
  | nil => intro st offs hinv p hp; exact hinv p hp
  | cons f fs ih =>
      intro st offs hinv p hp
      rw [List.foldl_cons] at hp ⊢
      have hstep : genStep tbl (st, offs) f =
          (generateFunction f tbl st, upsert offs f.name st.code.length) := rfl
      rw [hstep] at hp ⊢
      refine ih _ _ ?_ p hp
      intro q hq
      obtain ⟨e, he⟩ := generateFunction_code f tbl st
      have hlen : st.code.length < (generateFunction f tbl st).code.length := by
        rw [he]; simp
      rcases mem_upsert _ _ _ _ hq with hq | hq
      · exact Nat.lt_trans (hinv q hq) hlen
      · rw [hq]; exact hlen

/-- **C7 counterexample** — the claim as stated fails on the minimal
module's (successful) compilation: the first symbol record's u32 value
field (at artifact offset 531 + 4, the symbol table starting at 531)
is 0, the relative offset of `init`, which does not lie in
`[code_offset, code_offset + code_size) = [512, 521)`. -/
theorem c7_counterexample :
    ("init", 0) ∈ minimalCG.functions ∧
    readU32 minimalArtifact 116 = 512 ∧
    readU32 minimalArtifact 120 = 9 ∧
    readU32 minimalArtifact 180 = 531 ∧
    readU32 minimalArtifact 535 = 0 ∧
    ¬ (512 ≤ readU32 minimalArtifact 535) := by decide!

/-- **C7 amended** — the symbol values are *code-section-relative*
offsets: for every parse result, every `(name, offset)` entry of the
code generator's function-offset map (the u32 value field of the
corresponding 12-byte symbol record) lies in `[0, code_size)`;
equivalently, `code_offset + offset` lies in
`[code_offset, code_offset + code_size)`. -/
theorem c7_symbol_offsets (pr : ParseResult) (nm : String) (off : Nat)
    (h : (nm, off) ∈ (AKMCodeGen.generate pr).functions) :
    off < (AKMCodeGen.generate pr).codeSize := by
  simp only [AKMCodeGen.generate] at h ⊢
  rw [resolveFixups_length]
  exact genFold_inv (AKMCodeGen.buildStringTable pr.ir.strings)
    pr.ir.functions ⟨[], [], []⟩ [] (by intro p hp; cases hp) (nm, off) h

/-- Closed witness for `c7_symbol_offsets` at the minimal module. -/
theorem c7_symbol_offsets_witness :
    ("init", 0) ∈ (AKMCodeGen.generate minimalParse).functions ∧
    0 < (AKMCodeGen.generate minimalParse).codeSize :=
  ⟨by decide!, c7_symbol_offsets minimalParse "init" 0 (by decide!)⟩

/-! ## C10: command-registration splice order -/

theorem spliceAt_left {α : Type} (P S new : List α) :
    spliceAt P.length new (P ++ S) = P ++ (new ++ S) := by
  unfold spliceAt
  rw [List.take_left, List.drop_left]
  simp [List.append_assoc]

theorem foldSplice (cmds : List Cmd) (idx : Nat) :
    ∀ (P S : List Instr), P.length = idx →
      cmds.foldl (fun acc cmd => spliceAt idx (regBlock cmd) acc) (P ++ S) =
        P ++ (cmds.reverse.flatMap regBlock ++ S) := by
  induction cmds with
  | nil => intro P S h; simp
  | cons c cs ih =>
      intro P S h
      rw [List.foldl_cons]
      have hsp : spliceAt idx (regBlock c) (P ++ S) = P ++ (regBlock c ++ S) := by
        rw [← h, spliceAt_left]
      rw [hsp, ih P (regBlock c ++ S) h]
      simp [List.append_assoc]

theorem injectIdx_le_length (instrs : List Instr) :
    injectIdx instrs ≤ instrs.length := by
  unfold injectIdx
  cases hf : instrs.findIdx? (fun i => i.op = OPCODES.RET) with
  | none => exact Nat.le_refl _
  | some r =>
      obtain ⟨hr, -⟩ := List.findIdx?_eq_some_iff_getElem.mp hf
      exact Nat.le_of_lt hr

/-- **C10** — the command-registration blocks spliced into `init`
appear in *reverse* extraction order: because every block is spliced at
the same insertion index (the position of the first `RET`), the
injected instruction list is the original prefix before the first
`RET`, then the blocks of the commands in reverse order (so with two or
more commands the last extracted command's block — `PUSH_STR` ×4,
`PUSH 0`, `CALL_API registerCommand argc=5`, `POP` — comes first),
then the rest of the original list. -/
theorem c10_reg_blocks_reversed (commands : List Cmd)
    (instrs : List Instr) :
    injectRegCalls commands instrs =
      instrs.take (injectIdx instrs) ++
      (commands.reverse.flatMap regBlock ++
       instrs.drop (injectIdx instrs)) := by
  unfold injectRegCalls
  have hle := injectIdx_le_length instrs
  revert hle
  generalize injectIdx instrs = idx
  intro hle
  conv_lhs => rw [← List.take_append_drop idx instrs]
  exact foldSplice commands idx _ _
    (by rw [List.length_take]; exact Nat.min_eq_left hle)

/-! ## C5, C6: the unimplemented `BinaryExpression` evaluation -/

/-- **C5** (code bug) — the restricted constant evaluator does *not*
resolve bitwise-OR expressions over `AKM.CAPS.<NAME>`:
`evaluateLiteral` has no `MemberExpression` case and its
`BinaryExpression` case is an unimplemented stub (`// Could evaluate
simple constant expressions`) that returns `null`.  The shipped
example's `capabilities: AKM.CAPS.COMMAND | AKM.CAPS.LOG` therefore
evaluates to `null` instead of `0x801`, is falsy in the capability
merge, and the declared mask is silently replaced by the inferred
one (here `LOG` alone). -/
theorem c5_caps_or_unresolved :
    evaluateLiteral capsOrExpr = JSVal.nullV ∧
    evaluateLiteral capsOrExpr ≠ JSVal.num 0x801 ∧
    cfgCaps (mergeCaps
        (parseObjectExpression (.objectExpr [("capabilities", capsOrExpr)]))
        CAPABILITIES.LOG) = CAPABILITIES.LOG := by decide!

/-- **C6** (code bug) — for `init` with body `return 2 + 3;`:
the IR builder evaluates the binary expression with `evaluateLiteral`,
which returns `null`, so the function's IR is `PUSH null; RET` — never
`PUSH 2; PUSH 3; ADD` — and the unoptimized code is `NOP, PUSH 0, RET`
(the `null` immediate encodes as 0), not two pushes and an `ADD`.
With `-O`, `AKMCompiler.compile` hands the code-generator result to the
optimizer, whose iteration over `func.instructions` of the name→offset
map entries throws a TypeError, so no artifact is produced at all —
in particular not `NOP, PUSH 5, RET`. -/
theorem c6_fold_scenario :
    evaluateLiteral (.binExpr "+" (.literal (.num 2)) (.literal (.num 3))) =
      JSVal.nullV ∧
    ((AKMParser.parse foldAst).ir.functions.map
        (fun f => (f.name, f.instructions.map (fun i => i.op)))) =
      [("init", [OPCODES.PUSH, OPCODES.RET]), ("exit", [OPCODES.RET])] ∧
    (AKMCompiler.compile {} foldParse).toOption.map
        (fun r => (r.binary.drop 512).take 9) =
      some [OPCODES.NOP, OPCODES.PUSH, 0, 0, 0, 0, OPCODES.RET,
        OPCODES.NOP, OPCODES.RET] ∧
    exceptErr (AKMCompiler.compile { optimize := true } foldParse) =
      some CompileError.optimizerTypeError := by decide!

/-- **C8** — compilation fails with a structural error, and no binary
is emitted, whenever the extracted module configuration has no (truthy)
name — which covers a source without any `AKM.module` call, whose
extracted config is empty — or no function named `init` was extracted,
or no function named `exit` was extracted. -/
theorem c8_structural_errors (opts : Options) (pr : ParseResult)
    (h : (pr.moduleConfig.map nameFalsy).getD true = true ∨
         (assocGet pr.functions "init").isNone = true ∨
         (assocGet pr.functions "exit").isNone = true) :
    ∃ e, AKMCompiler.compile opts pr = Except.error e ∧
      e.isStructural = true := by
  have hv : ∃ e, AKMCompiler.validateModule pr = Except.error e ∧
      e.isStructural = true := by
    unfold AKMCompiler.validateModule
    match hmc : pr.moduleConfig with
    | none => exact ⟨.noModuleConfig, rfl, rfl⟩
    | some cfg =>
        by_cases hn : nameFalsy cfg = true
        · exact ⟨.noName, by simp [hn], rfl⟩
        · by_cases hi : (assocGet pr.functions "init").isNone = true
          · refine ⟨.noInit, ?_, rfl⟩
            simp [hn, hi]
          · by_cases he : (assocGet pr.functions "exit").isNone = true
            · refine ⟨.noExit, ?_, rfl⟩
              simp [hn, hi, he]
            · exfalso
              rw [hmc] at h
              simp [hn, hi, he] at h
  obtain ⟨e, he, hs⟩ := hv
  refine ⟨e, ?_, hs⟩
  unfold AKMCompiler.compile
  rw [he]
  rfl

/-- Closed witness for `c8_structural_errors` on a source without any
`AKM.module` call. -/
theorem c8_structural_errors_witness :
    ((emptyParse.moduleConfig.map nameFalsy).getD true = true ∨
     (assocGet emptyParse.functions "init").isNone = true ∨
     (assocGet emptyParse.functions "exit").isNone = true) ∧
    (∃ e, AKMCompiler.compile {} emptyParse = Except.error e ∧
      e.isStructural = true) :=
  ⟨Or.inl (by decide!),
   c8_structural_errors {} emptyParse (Or.inl (by decide!))⟩

/-! ## C9: inspector rejections -/

/-- **C9** — the inspector exits with a non-zero status for every
input whose byte length is below 512 or whose first four bytes are not
the little-endian magic `0x324D4B41`; in the magic-mismatch case the
error message ends with (hence contains) the observed magic rendered
in uppercase hexadecimal. -/
theorem c9_inspector_rejects (data : List Nat)
    (h : data.length < 512 ∨ readU32 data 0 ≠ 0x324D4B41) :
    inspectExitCode data = 1 ∧
    (512 ≤ data.length →
      showModuleInfo data = Except.error (badMagicMsg (readU32 data 0)) ∧
      hexU (readU32 data 0) <:+ badMagicMsg (readU32 data 0)) := by
  constructor
  · by_cases hl : data.length < 512
    · simp [inspectExitCode, showModuleInfo, hl]
    · have hm : readU32 data 0 ≠ 0x324D4B41 := by
        rcases h with h | h
        · exact absurd h hl
        · exact h
      simp [inspectExitCode, showModuleInfo, hl, hm]
  · intro hlen
    have hl : ¬ data.length < 512 := by omega
    have hm : readU32 data 0 ≠ 0x324D4B41 := by
      rcases h with h | h
      · omega
      · exact h
    refine ⟨by simp [showModuleInfo, hl, hm], ?_⟩
    exact ⟨"Invalid magic: expected 0x324D4B41 (AKM2), got 0x".toList, rfl⟩

/-- Closed witness for `c9_inspector_rejects` on a 512-byte zero file
(magic reads 0). -/
theorem c9_inspector_rejects_witness :
    ((zeros 512).length < 512 ∨ readU32 (zeros 512) 0 ≠ 0x324D4B41) ∧
    (inspectExitCode (zeros 512) = 1 ∧
     (512 ≤ (zeros 512).length →
       showModuleInfo (zeros 512) =
         Except.error (badMagicMsg (readU32 (zeros 512) 0)) ∧
       hexU (readU32 (zeros 512) 0) <:+ badMagicMsg (readU32 (zeros 512) 0))) :=
  ⟨Or.inr (by decide!),
   c9_inspector_rejects (zeros 512) (Or.inr (by decide!))⟩

/-! ## C4: capability inference -/

theorem assocGet_upsert {α : Type} (l : List (String × α)) (k : String)
    (x : α) : assocGet (upsert l k x) k = some x := by
  induction l with
  | nil => simp [upsert, assocGet]
  | cons p l ih =>
      by_cases hp : p.1 = k
      · unfold upsert
        rw [if_pos (by simp [hp])]
        unfold assocGet
        simp [List.find?_cons, hp]
      · have step : ∀ (rest : List (String × α)),
            assocGet (p :: rest) k = assocGet rest k := by
          intro rest
          simp [assocGet, List.find?_cons, hp]
        unfold upsert at ih ⊢
        by_cases ha : (l.any fun q => q.1 = k) = true
        · rw [if_pos (by simp [List.any_cons, ha])]
          rw [if_pos ha] at ih
          simp only [List.map_cons, if_neg hp]
          rw [step]
          exact ih
        · rw [if_neg (by simp [List.any_cons, hp, ha])]
          rw [if_neg ha] at ih
          simp only [List.cons_append]
          rw [step]
          exact ih

theorem subMask_land (c m : Nat)
    (h : ∀ i, c.testBit i = true → m.testBit i = true) : c &&& m = c := by
  apply Nat.eq_of_testBit_eq
  intro i
  rw [Nat.testBit_land]
  cases hc : c.testBit i
  · simp
  · simp [h i hc]

theorem capStep_testBit (caps : Nat) (call : APICall) (i : Nat)
    (h : caps.testBit i = true) : (capStep caps call).testBit i = true := by
  unfold capStep
  cases apiLookup call.method with
  | none => exact h
  | some info => rw [Nat.testBit_lor, h]; rfl

theorem capFold_testBit (l : List APICall) :
    ∀ (acc : Nat) (i : Nat), acc.testBit i = true →
      (l.foldl capStep acc).testBit i = true := by
  induction l with
  | nil => intro acc i h; exact h
  | cons c l ih => intro acc i h; exact ih _ i (capStep_testBit acc c i h)

theorem capFold_contains (l : List APICall) (m : String) (info : APIInfo)
    (hapi : apiLookup m = some info) :
    ∀ (acc : Nat), m ∈ l.map (fun c => c.method) →
      ∀ i, info.capability.testBit i = true →
        (l.foldl capStep acc).testBit i = true := by
  induction l with
  | nil => intro acc hm; cases hm
  | cons c l ih =>
      intro acc hm i hi
      rw [List.foldl_cons]
      rcases List.mem_cons.mp hm with hm | hm
      · have hm2 : m = c.method := hm
        have hstep : capStep acc c = acc ||| info.capability := by
          unfold capStep
          rw [← hm2, hapi]
        rw [hstep]
        exact capFold_testBit l _ i (by rw [Nat.testBit_lor, hi]; simp)
      · exact ih _ hm i hi

theorem apiLookup_capability_lt (m : String) (info : APIInfo)
    (h : apiLookup m = some info) : info.capability < 4294967296 := by
  unfold apiLookup at h
  cases hf : API_FUNCTIONS.find? (fun p => p.1 = m) with
  | none => rw [hf] at h; cases h
  | some p =>
      rw [hf] at h
      have hmem := List.mem_of_find?_eq_some hf
      have hall : ∀ q ∈ API_FUNCTIONS, q.2.capability < 4294967296 := by
        decide
      have h2 : p.2 = info := by simpa using h
      rw [← h2]
      exact hall p hmem

theorem capFold_lt (l : List APICall) :
    ∀ acc, acc < 4294967296 → l.foldl capStep acc < 4294967296 := by
  induction l with
  | nil => intro acc h; exact h
  | cons c l ih =>
      intro acc h
      rw [List.foldl_cons]
      refine ih _ ?_
      unfold capStep
      cases hc : apiLookup c.method with
      | none => exact h
      | some info =>
          have h2 : info.capability < 2 ^ 32 := by
            have := apiLookup_capability_lt _ _ hc
            omega
          have h3 := Nat.or_lt_two_pow (show acc < 2 ^ 32 by omega) h2
          show acc ||| info.capability < 4294967296
          omega

/-- The required-capabilities computation, restated through `capStep`
(definitionally equal to `computeRequiredCapabilities`). -/
theorem computeRequiredCapabilities_eq (apiCalls : List APICall)
    (commands : List Cmd) :
    computeRequiredCapabilities apiCalls commands =
      apiCalls.foldl capStep
        (if commands.length > 0 then CAPABILITIES.COMMAND else 0) |||
      CAPABILITIES.LOG := rfl

theorem requiredCaps_lt (apiCalls : List APICall) (commands : List Cmd) :
    computeRequiredCapabilities apiCalls commands < 4294967296 := by
  rw [computeRequiredCapabilities_eq]
  have h1 : apiCalls.foldl capStep
      (if commands.length > 0 then CAPABILITIES.COMMAND else 0) < 2 ^ 32 := by
    refine capFold_lt _ _ ?_
    split <;> decide
  have h2 : CAPABILITIES.LOG < 2 ^ 32 := by decide
  have := Nat.or_lt_two_pow h1 h2
  omega

theorem requiredCaps_pos (apiCalls : List APICall) (commands : List Cmd) :
    computeRequiredCapabilities apiCalls commands ≠ 0 := by
  intro h0
  have h11 : (computeRequiredCapabilities apiCalls commands).testBit 11 =
      true := by
    rw [computeRequiredCapabilities_eq, Nat.testBit_lor]
    have : (CAPABILITIES.LOG).testBit 11 = true := by decide
    rw [this]
    simp
  rw [h0] at h11
  simp at h11

theorem cfgValToCaps_lt (cv : CfgVal) : cfgValToCaps cv < 4294967296 := by
  unfold cfgValToCaps
  split
  · omega
  · split <;> omega
  · omega

theorem mergeCaps_none (cfg0 : List (String × CfgVal)) (r : Nat)
    (hc : assocGet cfg0 "capabilities" = none) :
    mergeCaps cfg0 r =
      upsert cfg0 "capabilities" (.v (.num (Int.ofNat r))) := by
  unfold mergeCaps
  rw [hc]

theorem mergeCaps_falsy (cfg0 : List (String × CfgVal)) (r : Nat)
    (cv : CfgVal) (hc : assocGet cfg0 "capabilities" = some cv)
    (ht : cfgTruthy cv = false) :
    mergeCaps cfg0 r =
      upsert cfg0 "capabilities" (.v (.num (Int.ofNat r))) := by
  unfold mergeCaps
  rw [hc]
  simp [ht]

theorem mergeCaps_truthy (cfg0 : List (String × CfgVal)) (r : Nat)
    (cv : CfgVal) (hc : assocGet cfg0 "capabilities" = some cv)
    (ht : cfgTruthy cv = true) :
    mergeCaps cfg0 r =
      upsert cfg0 "capabilities"
        (.v (.num (Int.ofNat (cfgValToCaps cv ||| r)))) := by
  unfold mergeCaps
  rw [hc]
  simp [ht]

theorem cfgCaps_upsert_num (cfg0 : List (String × CfgVal)) (X : Nat)
    (hX : X ≠ 0) (hXlt : X < 4294967296) :
    cfgCaps (upsert cfg0 "capabilities" (.v (.num (Int.ofNat X)))) = X := by
  unfold cfgCaps
  rw [assocGet_upsert]
  have ht : cfgTruthy (.v (.num (Int.ofNat X))) = true := by
    simp [cfgTruthy]
    omega
  show (if cfgTruthy (CfgVal.v (JSVal.num (Int.ofNat X))) = true then
    cfgValToCaps (CfgVal.v (JSVal.num (Int.ofNat X))) else 0) = X
  rw [ht]
  simp only [if_true]
  simp [cfgValToCaps]
  omega

/-- After `mergeCaps`, the stored `capabilities` number is the declared
32-bit view OR'd with the required mask (or the required mask alone
when the declared value is falsy), and `cfgCaps` reads it back
unchanged: in particular every bit of the required mask survives. -/
theorem cfgCaps_mergeCaps_testBit (cfg0 : List (String × CfgVal)) (r : Nat)
    (hr0 : r ≠ 0) (hrlt : r < 4294967296) (i : Nat)
    (hi : r.testBit i = true) :
    (cfgCaps (mergeCaps cfg0 r)).testBit i = true := by
  cases hc : assocGet cfg0 "capabilities" with
  | none =>
      rw [mergeCaps_none cfg0 r hc, cfgCaps_upsert_num cfg0 r hr0 hrlt]
      exact hi
  | some cv =>
      by_cases htr : cfgTruthy cv = true
      · rw [mergeCaps_truthy cfg0 r cv hc htr]
        have hX0 : cfgValToCaps cv ||| r ≠ 0 := by
          intro hz
          apply hr0
          apply Nat.eq_of_testBit_eq
          intro j
          have hj := congrArg (fun n => Nat.testBit n j) hz
          simp only [Nat.testBit_lor, Nat.zero_testBit] at hj ⊢
          rcases Bool.or_eq_false_iff.mp hj with ⟨-, hrj⟩
          exact hrj
        have hXlt : cfgValToCaps cv ||| r < 4294967296 := by
          have h1 : cfgValToCaps cv < 2 ^ 32 := by
            have := cfgValToCaps_lt cv
            omega
          have h2 : r < 2 ^ 32 := by omega
          have := Nat.or_lt_two_pow h1 h2
          omega
        rw [cfgCaps_upsert_num cfg0 _ hX0 hXlt, Nat.testBit_lor, hi]
        simp
      · rw [mergeCaps_falsy cfg0 r cv hc (Bool.not_eq_true _ ▸
          Bool.of_not_eq_true htr), cfgCaps_upsert_num cfg0 r hr0 hrlt]
        exact hi

theorem cfgCaps_mergeCaps_lt (cfg0 : List (String × CfgVal)) (r : Nat)
    (hr0 : r ≠ 0) (hrlt : r < 4294967296) :
    cfgCaps (mergeCaps cfg0 r) < 4294967296 := by
  cases hc : assocGet cfg0 "capabilities" with
  | none =>
      rw [mergeCaps_none cfg0 r hc, cfgCaps_upsert_num cfg0 r hr0 hrlt]
      exact hrlt
  | some cv =>
      by_cases htr : cfgTruthy cv = true
      · rw [mergeCaps_truthy cfg0 r cv hc htr]
        have hX0 : cfgValToCaps cv ||| r ≠ 0 := by
          intro hz
          apply hr0
          apply Nat.eq_of_testBit_eq
          intro j
          have hj := congrArg (fun n => Nat.testBit n j) hz
          simp only [Nat.testBit_lor, Nat.zero_testBit] at hj ⊢
          rcases Bool.or_eq_false_iff.mp hj with ⟨-, hrj⟩
          exact hrj
        have hXlt : cfgValToCaps cv ||| r < 4294967296 := by
          have h1 : cfgValToCaps cv < 2 ^ 32 := by
            have := cfgValToCaps_lt cv
            omega
          have h2 : r < 2 ^ 32 := by omega
          have := Nat.or_lt_two_pow h1 h2
          omega
        rw [cfgCaps_upsert_num cfg0 _ hX0 hXlt]
        exact hXlt
      · rw [mergeCaps_falsy cfg0 r cv hc (Bool.not_eq_true _ ▸
          Bool.of_not_eq_true htr), cfgCaps_upsert_num cfg0 r hr0 hrlt]
        exact hrlt

theorem readU32_headerPre_108 (mi : ModuleInfo) (fl : Bool)
    (t co cs dof ds io eo so ss sto sts : Nat) (rest : List Nat) :
    readU32 (headerPre mi fl t co cs dof ds io eo so ss sto sts ++ rest)
      108 = mi.capabilities % 4294967296 := by
  simp only [headerPre, List.append_assoc]
  rw [show (108 : Nat) = 4 + 104 by norm_num,
    readU32_skipN _ _ 4 104 (by simp)]
  rw [show (104 : Nat) = 2 + 102 by norm_num,
    readU32_skipN _ _ 2 102 (by simp)]
  rw [show (102 : Nat) = 2 + 100 by norm_num,
    readU32_skipN _ _ 2 100 (by simp)]
  rw [show (100 : Nat) = 4 + 96 by norm_num,
    readU32_skipN _ _ 4 96 (by simp)]
  rw [show (96 : Nat) = 4 + 92 by norm_num,
    readU32_skipN _ _ 4 92 (by simp)]
  rw [show (92 : Nat) = 32 + 60 by norm_num,
    readU32_skipN _ _ 32 60 (by simp)]
  rw [show (60 : Nat) = 16 + 44 by norm_num,
    readU32_skipN _ _ 16 44 (by simp)]
  rw [show (44 : Nat) = 32 + 12 by norm_num,
    readU32_skipN _ _ 32 12 (by simp)]
  rw [show (12 : Nat) = 2 + 10 by norm_num,
    readU32_skipN _ _ 2 10 (by simp)]
  rw [show (10 : Nat) = 2 + 8 by norm_num,
    readU32_skipN _ _ 2 8 (by simp)]
  rw [show (8 : Nat) = 4 + 4 by norm_num,
    readU32_skipN _ _ 4 4 (by simp)]
  rw [show (4 : Nat) = 4 + 0 by norm_num,
    readU32_skipN _ _ 4 0 (by simp)]
  exact readU32_le32 ..

theorem readU32_write_108 (opts : Options) (cg : CodegenResult)
    (mi : ModuleInfo) (h : mi.capabilities < 4294967296) :
    readU32 (AKMBinaryWriter.write opts cg mi) 108 = mi.capabilities := by
  simp only [AKMBinaryWriter.write, List.append_assoc]
  rw [readU32_headerPre_108]
  exact Nat.mod_eq_of_lt h

/-- **C4** — for every source compiled without a capabilities override:
a call `AKM.M(...)` with `M` in the API table sets `M`'s declared
capability bit in the module's capability mask; bit `LOG` (0x800) is
always set; at least one `AKM.command` registration also sets bit
`COMMAND` (0x1); and the writer stores exactly this mask as the u32 at
header offset 108 of every artifact it produces. -/
theorem c4_capability_inference (ast : Node) (opts : Options)
    (hopts : opts.capabilities = none)
    (method : String) (apiInfo : APIInfo)
    (hmem : method ∈ (AKMParser.parse ast).apiCalls.map (fun c => c.method))
    (hapi : apiLookup method = some apiInfo) :
    apiInfo.capability &&&
        (extractModuleInfo opts (AKMParser.parse ast)).capabilities =
      apiInfo.capability ∧
    CAPABILITIES.LOG &&&
        (extractModuleInfo opts (AKMParser.parse ast)).capabilities =
      CAPABILITIES.LOG ∧
    ((AKMParser.parse ast).commands ≠ [] →
      CAPABILITIES.COMMAND &&&
          (extractModuleInfo opts (AKMParser.parse ast)).capabilities =
        CAPABILITIES.COMMAND) ∧
    (∀ (cg : CodegenResult),
      readU32 (AKMBinaryWriter.write opts cg
          (extractModuleInfo opts (AKMParser.parse ast))) 108 =
        (extractModuleInfo opts (AKMParser.parse ast)).capabilities) := by
  have hcaps : (extractModuleInfo opts (AKMParser.parse ast)).capabilities =
      cfgCaps (mergeCaps (extractModuleConfig ast)
        (computeRequiredCapabilities (extractAPICalls ast)
          (extractCommands ast))) := by
    simp [extractModuleInfo, AKMParser.parse, hopts]
  have hr0 := requiredCaps_pos (extractAPICalls ast) (extractCommands ast)
  have hrlt := requiredCaps_lt (extractAPICalls ast) (extractCommands ast)
  have hmain : ∀ i,
      (computeRequiredCapabilities (extractAPICalls ast)
        (extractCommands ast)).testBit i = true →
      ((extractModuleInfo opts (AKMParser.parse ast)).capabilities).testBit
        i = true := by
    intro i hi
    rw [hcaps]
    exact cfgCaps_mergeCaps_testBit _ _ hr0 hrlt i hi
  refine ⟨?_, ?_, ?_, ?_⟩
  · refine subMask_land _ _ (fun i hi => hmain i ?_)
    rw [computeRequiredCapabilities_eq, Nat.testBit_lor]
    have hc := capFold_contains (extractAPICalls ast) method apiInfo hapi
      (if (extractCommands ast).length > 0 then CAPABILITIES.COMMAND else 0)
      hmem i hi
    rw [hc]
    rfl
  · refine subMask_land _ _ (fun i hi => hmain i ?_)
    rw [computeRequiredCapabilities_eq, Nat.testBit_lor, hi]
    simp
  · intro hcmds
    refine subMask_land _ _ (fun i hi => hmain i ?_)
    rw [computeRequiredCapabilities_eq, Nat.testBit_lor]
    have hlen : 0 < (extractCommands ast).length :=
      List.length_pos.mpr hcmds
    have hacc : (if (extractCommands ast).length > 0 then
        CAPABILITIES.COMMAND else 0).testBit i = true := by
      rw [if_pos hlen]
      exact hi
    rw [capFold_testBit (extractAPICalls ast) _ i hacc]
    rfl
  · intro cg
    refine readU32_write_108 opts cg _ ?_
    rw [hcaps]
    exact cfgCaps_mergeCaps_lt _ _ hr0 hrlt

/-- Closed witness for `c4_capability_inference` at `capsAst`. -/
theorem c4_capability_inference_witness :
    (({} : Options).capabilities = none ∧
     "getTicks" ∈ (AKMParser.parse capsAst).apiCalls.map
       (fun c => c.method) ∧
     apiLookup "getTicks" = some ⟨CAPABILITIES.TIMER, 0⟩) ∧
    ((⟨CAPABILITIES.TIMER, 0⟩ : APIInfo).capability &&&
        (extractModuleInfo {} (AKMParser.parse capsAst)).capabilities =
      (⟨CAPABILITIES.TIMER, 0⟩ : APIInfo).capability ∧
    CAPABILITIES.LOG &&&
        (extractModuleInfo {} (AKMParser.parse capsAst)).capabilities =
      CAPABILITIES.LOG ∧
    ((AKMParser.parse capsAst).commands ≠ [] →
      CAPABILITIES.COMMAND &&&
          (extractModuleInfo {} (AKMParser.parse capsAst)).capabilities =
        CAPABILITIES.COMMAND) ∧
    (∀ (cg : CodegenResult),
      readU32 (AKMBinaryWriter.write {} cg
          (extractModuleInfo {} (AKMParser.parse capsAst))) 108 =
        (extractModuleInfo {} (AKMParser.parse capsAst)).capabilities)) :=
  ⟨⟨rfl, by decide!, by decide!⟩,
   c4_capability_inference capsAst {} rfl "getTicks" ⟨CAPABILITIES.TIMER, 0⟩
     (by decide!) (by decide!)⟩

end AKM
